import Mathlib

/-!
# qt-signal-tools: callback proxy and safe binder

A shallow embedding of `QtCallbackProxy.cpp` and `SafeBinder.h`.

Conventions of the embedding.

* A non-null `QObject*` is a natural number (object identity).  Where the source
  null-checks a pointer (`this->sender()`), the pointer is an `Option`.
* The Qt library is outside the repository.  The static reflection data and
  oracles are the fields of `QtEnv`; the mutable state touched by the proxy
  (the connection list, the installed event filters, the `qWarning` output, the
  sequence of low-level calls) is `QtRuntime`.
* Callbacks act on a user state `U`; they do not re-enter the proxy.  A callback
  is "invoked" when its state transformer is applied.
* The headers `QtCallbackProxy.h` and `QtCallback.h` are not available: the
  structures `Binding`, `EventBinding`, `Callback` are reconstructed from their
  uses in `QtCallbackProxy.cpp`.
* The two overloads of `bind` and `unbind` are `bind`/`bindEvent` and
  `unbind`/`unbindEvent`.
-/

namespace QtSignalTools

/-! ## Qt library: static environment and runtime state -/

/-- Identity of a live `QObject` (a non-null `QObject*`). -/
abbrev QObjectPtr := Nat

/-- Address of a `QtCallbackProxy` allocated with `new`. -/
abbrev ProxyPtr := Nat

/-- The kinds of `QMetaObject::Call`. -/
inductive Call where
  | InvokeMetaMethod
  | ReadProperty
  | WriteProperty
  | ResetProperty
  | QueryPropertyDesignable
  | QueryPropertyScriptable
  | QueryPropertyStored
  | QueryPropertyEditable
  | QueryPropertyUser
  | CreateInstance
deriving DecidableEq, Repr

/-- A `QEvent`: its `type()` and a payload a filter may inspect. -/
structure QEvent where
  type : Nat
  payload : Nat
deriving DecidableEq, Repr

/-- Reflection data and library oracles the proxy consults. -/
structure QtEnv where
  /-- The function `QMetaObject::normalizedSignature`. -/
  normalizedSignature : String → String
  /-- The lookup `object->metaObject()->indexOfMethod(sig)`; negative when there is no such method. -/
  indexOfMethod : QObjectPtr → String → Int
  /-- The list `object->metaObject()->method(i).parameterTypes()`. -/
  parameterTypes : QObjectPtr → Int → List String
  /-- The text `object->metaObject()->method(i).signature()`. -/
  signature : QObjectPtr → Int → String
  /-- The number `QObject::staticMetaObject.methodCount()`. -/
  methodCount : Int
  /-- Whether `QMetaObject::connect(sender, signalIndex, receiver, method, ..)` succeeds. -/
  connectSucceeds : QObjectPtr → Int → ProxyPtr → Int → Bool
  /-- The base class step `QObject::qt_metacall(call, methodId, arguments)`. -/
  QObject_qt_metacall : Call → Int → Int
  /-- The base class step `QObject::eventFilter(watched, event)`. -/
  QObject_eventFilter : QObjectPtr → QEvent → Bool

/-- One entry of the connection list of Qt. -/
structure Connection where
  sender : QObjectPtr
  signalIndex : Int
  receiver : ProxyPtr
  methodIndex : Int
deriving DecidableEq, Repr

/-- A low-level Qt primitive the proxy called. -/
inductive QtCall where
  | connect (c : Connection)
  | disconnect (c : Connection)
  | installEventFilter (watched : QObjectPtr) (filterObj : ProxyPtr)
  | removeEventFilter (watched : QObjectPtr) (filterObj : ProxyPtr)
deriving DecidableEq, Repr

/-- A line written to `qWarning()`. -/
inductive Diagnostic where
  /-- Line `"No such signal" << signal << "for" << sender`. -/
  | noSuchSignal (signal : String) (sender : QObjectPtr)
  /-- Line `"Unable to connect signal" << signal << "for" << sender`. -/
  | unableToConnect (signal : String) (sender : QObjectPtr)
  /-- Line `"Failed to invoke callback" << error`, written by `failInvoke`. -/
  | failedToInvoke (error : String)
deriving DecidableEq, Repr

/-- The part of the mutable state of Qt the proxy reads and writes. -/
structure QtRuntime where
  /-- Signal/slot connections made with `QMetaObject::connect`. -/
  connections : List Connection
  /-- Pairs (watched object, filter object) set up by `installEventFilter`. -/
  eventFilters : List (QObjectPtr × ProxyPtr)
  /-- Output of `qWarning()`, oldest first. -/
  warnings : List Diagnostic
  /-- Low-level primitives called so far, oldest first. -/
  calls : List QtCall
deriving DecidableEq, Repr

/-- A runtime in which nothing has happened yet. -/
def QtRuntime.empty : QtRuntime :=
  { connections := [], eventFilters := [], warnings := [], calls := [] }

/-- Effect of `qWarning() << ..`. -/
def QtRuntime.warn (rt : QtRuntime) (d : Diagnostic) : QtRuntime :=
  { rt with warnings := rt.warnings ++ [d] }

/-- Effect of `QMetaObject::connect`: on success the connection is appended. -/
def QMetaObject_connect (env : QtEnv) (rt : QtRuntime) (sender : QObjectPtr) (signalIndex : Int)
    (receiver : ProxyPtr) (methodIndex : Int) : Bool × QtRuntime :=
  let c : Connection := ⟨sender, signalIndex, receiver, methodIndex⟩
  if env.connectSucceeds sender signalIndex receiver methodIndex then
    (true, { rt with connections := rt.connections ++ [c], calls := rt.calls ++ [QtCall.connect c] })
  else
    (false, { rt with calls := rt.calls ++ [QtCall.connect c] })

/-- Effect of `QMetaObject::disconnect`: every connection with these four keys goes. -/
def QMetaObject_disconnect (rt : QtRuntime) (sender : QObjectPtr) (signalIndex : Int)
    (receiver : ProxyPtr) (methodIndex : Int) : QtRuntime :=
  let c : Connection := ⟨sender, signalIndex, receiver, methodIndex⟩
  { rt with connections := rt.connections.filter (fun x => decide (x ≠ c)),
            calls := rt.calls ++ [QtCall.disconnect c] }

/-- Effect of `watched->installEventFilter(filterObj)`: Qt drops an earlier entry
for the same filter object and puts the filter in front. -/
def QObject_installEventFilter (rt : QtRuntime) (watched : QObjectPtr) (filterObj : ProxyPtr) :
    QtRuntime :=
  { rt with eventFilters :=
              (watched, filterObj) :: rt.eventFilters.filter (fun x => decide (x ≠ (watched, filterObj))),
            calls := rt.calls ++ [QtCall.installEventFilter watched filterObj] }

/-- Effect of `watched->removeEventFilter(filterObj)`. -/
def QObject_removeEventFilter (rt : QtRuntime) (watched : QObjectPtr) (filterObj : ProxyPtr) :
    QtRuntime :=
  { rt with eventFilters := rt.eventFilters.filter (fun x => decide (x ≠ (watched, filterObj))),
            calls := rt.calls ++ [QtCall.removeEventFilter watched filterObj] }

/-! ## Data model of the proxy -/

/-- A `QGenericArgument(name, data)`: a type tag (`none` for a null `const char*`)
and a raw payload slot (`none` when the slot lies beyond the payload array). -/
structure QGenericArgument (α : Type) where
  name : Option String
  data : Option α
deriving DecidableEq, Repr

/-- The `Callback` holder: `function` is the zero-argument `std::function`
(`none` when empty), `qtCallback` is `QtCallback::invokeWithArgs`. -/
structure Callback (α U : Type) where
  function : Option (U → U)
  qtCallback : List (QGenericArgument α) → U → U

/-- A signal binding of the proxy. -/
structure Binding (α U : Type) where
  sender : QObjectPtr
  signalIndex : Int
  callback : Callback α U
  paramTypes : List String

/-- Modelled from the spec: the helper `Binding::paramType(int)` is declared in
`QtCallbackProxy.h`, which is missing.  It yields the captured type tag at a
position, and a null tag at positions past the declared arity. -/
def Binding.paramType {α U : Type} (b : Binding α U) (i : Nat) : Option String :=
  b.paramTypes[i]?

/-- The type of an event filter, `EventFilterFunc`; `none` is an empty function. -/
abbrev EventFilterFunc := Option (QObjectPtr → QEvent → Bool)

/-- An event binding of the proxy. -/
structure EventBinding (α U : Type) where
  sender : QObjectPtr
  eventType : Nat
  callback : Callback α U
  filter : EventFilterFunc

/-- The members of a `QtCallbackProxy`. -/
structure QtCallbackProxy (α U : Type) where
  m_bindings : List (Binding α U)
  m_eventBindings : List (EventBinding α U)

/-- The constructor `QtCallbackProxy(parent)`: both tables start empty. -/
def QtCallbackProxy.new (α U : Type) : QtCallbackProxy α U :=
  { m_bindings := [], m_eventBindings := [] }

/-! ## Operations of `QtCallbackProxy.cpp` -/

/-- The function `qtObjectSignalIndex(object, signal)`; `signal + 1` skips the code
character the `SIGNAL()` macro puts in front. -/
def qtObjectSignalIndex (env : QtEnv) (object : QObjectPtr) (signal : String) : Int :=
  let normalizedSignature := env.normalizedSignature (signal.drop 1)
  env.indexOfMethod object normalizedSignature

section Ops
variable {α U : Type}

/-- The method `QtCallbackProxy::bind(sender, signal, callback)`. -/
def QtCallbackProxy.bind (env : QtEnv) (self : ProxyPtr) (p : QtCallbackProxy α U) (rt : QtRuntime)
    (sender : QObjectPtr) (signal : String) (callback : Callback α U) :
    QtCallbackProxy α U × QtRuntime :=
  let signalIndex := qtObjectSignalIndex env sender signal
  if signalIndex < 0 then
    (p, rt.warn (Diagnostic.noSuchSignal signal sender))
  else
    let binding : Binding α U :=
      { sender := sender, signalIndex := signalIndex, callback := callback,
        paramTypes := env.parameterTypes sender signalIndex }
    let memberOffset := env.methodCount
    let r := QMetaObject_connect env rt sender signalIndex self memberOffset
    if !r.1 then
      (p, r.2.warn (Diagnostic.unableToConnect signal sender))
    else
      ({ p with m_bindings := p.m_bindings ++ [binding] }, r.2)

/-- The method `QtCallbackProxy::bind(sender, event, callback, filter)`. -/
def QtCallbackProxy.bindEvent (self : ProxyPtr) (p : QtCallbackProxy α U) (rt : QtRuntime)
    (sender : QObjectPtr) (event : Nat) (callback : Callback α U) (filter : EventFilterFunc) :
    QtCallbackProxy α U × QtRuntime :=
  let rt1 := QObject_installEventFilter rt sender self
  let binding : EventBinding α U :=
    { sender := sender, eventType := event, callback := callback, filter := filter }
  ({ p with m_eventBindings := p.m_eventBindings ++ [binding] }, rt1)

/-- The `while (iter.hasNext())` loop of `unbind(sender, signal)` over the bindings
not yet visited: a match is disconnected and removed, anything else stays. -/
def unbindLoop (self : ProxyPtr) (memberOffset : Int) (sender : QObjectPtr) (signalIndex : Int) :
    List (Binding α U) → QtRuntime → List (Binding α U) × QtRuntime
  | [], rt => ([], rt)
  | binding :: rest, rt =>
    if binding.sender = sender ∧ binding.signalIndex = signalIndex then
      unbindLoop self memberOffset sender signalIndex rest
        (QMetaObject_disconnect rt sender signalIndex self memberOffset)
    else
      let r := unbindLoop self memberOffset sender signalIndex rest rt
      (binding :: r.1, r.2)

/-- The method `QtCallbackProxy::unbind(sender, signal)`. -/
def QtCallbackProxy.unbind (env : QtEnv) (self : ProxyPtr) (p : QtCallbackProxy α U)
    (rt : QtRuntime) (sender : QObjectPtr) (signal : String) : QtCallbackProxy α U × QtRuntime :=
  let signalIndex := qtObjectSignalIndex env sender signal
  let r := unbindLoop self env.methodCount sender signalIndex p.m_bindings rt
  ({ p with m_bindings := r.1 }, r.2)

/-- The `while (iter.hasNext())` loop of `unbind(sender, event)`, threading
`activeBindingCount`. -/
def unbindEventLoop (sender : QObjectPtr) (event : Nat) :
    List (EventBinding α U) → Int → List (EventBinding α U) × Int
  | [], activeBindingCount => ([], activeBindingCount)
  | binding :: rest, activeBindingCount =>
    if binding.sender = sender then
      if binding.eventType = event then
        unbindEventLoop sender event rest (activeBindingCount + 1 - 1)
      else
        let r := unbindEventLoop sender event rest (activeBindingCount + 1)
        (binding :: r.1, r.2)
    else
      let r := unbindEventLoop sender event rest activeBindingCount
      (binding :: r.1, r.2)

/-- The method `QtCallbackProxy::unbind(sender, event)`. -/
def QtCallbackProxy.unbindEvent (self : ProxyPtr) (p : QtCallbackProxy α U) (rt : QtRuntime)
    (sender : QObjectPtr) (event : Nat) : QtCallbackProxy α U × QtRuntime :=
  let r := unbindEventLoop sender event p.m_eventBindings 0
  let rt1 := if r.2 = 0 then QObject_removeEventFilter rt sender self else rt
  ({ p with m_eventBindings := r.1 }, rt1)

/-- The index loop of `matchBinding` over the bindings from the current index on. -/
def matchBindingLoop (sender : Option QObjectPtr) (signalIndex : Int) :
    List (Binding α U) → Option (Binding α U)
  | [] => none
  | binding :: rest =>
    if some binding.sender = sender ∧ binding.signalIndex = signalIndex then some binding
    else matchBindingLoop sender signalIndex rest

/-- The method `QtCallbackProxy::matchBinding(sender, signalIndex)`; `none` is the
null result. -/
def QtCallbackProxy.matchBinding (p : QtCallbackProxy α U) (sender : Option QObjectPtr)
    (signalIndex : Int) : Option (Binding α U) :=
  matchBindingLoop sender signalIndex p.m_bindings

/-- The method `QtCallbackProxy::failInvoke(error)`. -/
def failInvoke (error : String) : Diagnostic :=
  Diagnostic.failedToInvoke error

/-- What one call of `qt_metacall` leaves behind. -/
structure MetacallResult (U : Type) where
  /-- The returned method id. -/
  ret : Int
  /-- Lines written to `qWarning()` during the call. -/
  warnings : List Diagnostic
  /-- The user state after the callbacks that ran. -/
  user : U

/-- The six `QGenericArgument`s built from a binding and the payload array. -/
def genericArgs (binding : Binding α U) (arguments : List α) : List (QGenericArgument α) :=
  [ ⟨binding.paramType 0, arguments[1]?⟩,
    ⟨binding.paramType 1, arguments[2]?⟩,
    ⟨binding.paramType 2, arguments[3]?⟩,
    ⟨binding.paramType 3, arguments[4]?⟩,
    ⟨binding.paramType 4, arguments[5]?⟩,
    ⟨binding.paramType 5, arguments[6]?⟩ ]

/-- The method `QtCallbackProxy::qt_metacall(call, methodId, arguments)`.  The
ambient `sender()` and `senderSignalIndex()` are explicit.  The result is `none`
when the code dereferences a null sender. -/
def QtCallbackProxy.qt_metacall (env : QtEnv) (p : QtCallbackProxy α U)
    (sender : Option QObjectPtr) (signalIndex : Int)
    (call : Call) (methodId : Int) (arguments : List α) (u : U) : Option (MetacallResult U) :=
  let w0 : List Diagnostic :=
    if sender = none then [failInvoke "Unable to determine sender"]
    else if signalIndex < 0 then [failInvoke "Unable to determine sender signal"]
    else []
  let methodId1 := env.QObject_qt_metacall call methodId
  if methodId1 < 0 then
    some ⟨methodId1, w0, u⟩
  else if call = Call.InvokeMetaMethod then
    if methodId1 = 0 then
      match p.matchBinding sender signalIndex with
      | some binding =>
        match binding.callback.function with
        | some f => some ⟨methodId1 - 1, w0, f u⟩
        | none =>
          some ⟨methodId1 - 1, w0, binding.callback.qtCallback (genericArgs binding arguments) u⟩
      | none =>
        match sender with
        | none => none
        | some s =>
          let signalName := env.signature s signalIndex
          some ⟨methodId1 - 1,
                w0 ++ [failInvoke ("Unable to find matching binding for signal " ++ signalName)], u⟩
    else
      some ⟨methodId1 - 1, w0, u⟩
  else
    some ⟨methodId1, w0, u⟩

/-- The `Q_FOREACH` loop of `eventFilter` over the event bindings not yet visited. -/
def eventFilterLoop (watched : QObjectPtr) (event : QEvent) :
    List (EventBinding α U) → U → U
  | [], u => u
  | binding :: rest, u =>
    if binding.sender = watched ∧ binding.eventType = event.type ∧
        (match binding.filter with
         | none => true
         | some f => f watched event) = true then
      match binding.callback.function with
      | some f => eventFilterLoop watched event rest (f u)
      | none => eventFilterLoop watched event rest (binding.callback.qtCallback [] u)
    else
      eventFilterLoop watched event rest u

/-- The method `QtCallbackProxy::eventFilter(watched, event)`. -/
def QtCallbackProxy.eventFilter (env : QtEnv) (p : QtCallbackProxy α U) (watched : QObjectPtr)
    (event : QEvent) (u : U) : Bool × U :=
  (env.QObject_eventFilter watched event, eventFilterLoop watched event p.m_eventBindings u)

/-! ## The proxy registry and the public entry points -/

/-- The program state seen by the public functions: the proxies allocated so far,
the dynamic property `"qt_callback_handler"` of every object, the Qt runtime and
the user state the callbacks act on. -/
structure World (α U : Type) where
  /-- The proxy stored at each address. -/
  heap : ProxyPtr → QtCallbackProxy α U
  /-- The address the next `new QtCallbackProxy` returns. -/
  nextProxy : ProxyPtr
  /-- The value of `object->property("qt_callback_handler")`; `none` is a null pointer. -/
  property : QObjectPtr → Option ProxyPtr
  rt : QtRuntime
  user : U

/-- The state before any proxy was installed. -/
def World.empty (α : Type) (u : U) : World α U :=
  { heap := fun _ => QtCallbackProxy.new α U, nextProxy := 0, property := fun _ => none,
    rt := QtRuntime.empty, user := u }

/-- The function `installCallbackProxy(sender)`. -/
def installCallbackProxy (w : World α U) (sender : QObjectPtr) : ProxyPtr × World α U :=
  match w.property sender with
  | some callbackProxy => (callbackProxy, w)
  | none =>
    let callbackProxy := w.nextProxy
    (callbackProxy,
      { w with heap := Function.update w.heap callbackProxy (QtCallbackProxy.new α U),
               nextProxy := w.nextProxy + 1,
               property := Function.update w.property sender (some callbackProxy) })

/-- The static function `QtCallbackProxy::connectCallback(sender, signal, callback)`. -/
def connectCallback (env : QtEnv) (w : World α U) (sender : QObjectPtr) (signal : String)
    (callback : Callback α U) : World α U :=
  let i := installCallbackProxy w sender
  let r := (i.2.heap i.1).bind env i.1 i.2.rt sender signal callback
  { i.2 with heap := Function.update i.2.heap i.1 r.1, rt := r.2 }

/-- The static function `QtCallbackProxy::disconnectCallbacks(sender, signal)`. -/
def disconnectCallbacks (env : QtEnv) (w : World α U) (sender : QObjectPtr) (signal : String) :
    World α U :=
  let i := installCallbackProxy w sender
  let r := (i.2.heap i.1).unbind env i.1 i.2.rt sender signal
  { i.2 with heap := Function.update i.2.heap i.1 r.1, rt := r.2 }

/-- The static function `QtCallbackProxy::connectEvent(sender, event, callback, filter)`. -/
def connectEvent (w : World α U) (sender : QObjectPtr) (event : Nat) (callback : Callback α U)
    (filter : EventFilterFunc) : World α U :=
  let i := installCallbackProxy w sender
  let r := (i.2.heap i.1).bindEvent i.1 i.2.rt sender event callback filter
  { i.2 with heap := Function.update i.2.heap i.1 r.1, rt := r.2 }

/-- The static function `QtCallbackProxy::disconnectEvent(sender, event)`. -/
def disconnectEvent (w : World α U) (sender : QObjectPtr) (event : Nat) : World α U :=
  let i := installCallbackProxy w sender
  let r := (i.2.heap i.1).unbindEvent i.1 i.2.rt sender event
  { i.2 with heap := Function.update i.2.heap i.1 r.1, rt := r.2 }

/-- One dispatch into the proxy at `receiver`: `qt_metacall` with the ambient sender
and signal index, its diagnostics and user state written back to the world. -/
def dispatch (env : QtEnv) (w : World α U) (receiver : ProxyPtr) (sender : Option QObjectPtr)
    (signalIndex : Int) (call : Call) (methodId : Int) (arguments : List α) : Option (World α U) :=
  match (w.heap receiver).qt_metacall env sender signalIndex call methodId arguments w.user with
  | none => none
  | some r => some { w with rt := { w.rt with warnings := w.rt.warnings ++ r.warnings },
                            user := r.user }

/-- Delivery of one emission along the given connections, oldest first: every
connection of `(sender, signalIndex)` gets one `InvokeMetaMethod` dispatch to its
receiver and method index. -/
def deliver (env : QtEnv) (sender : QObjectPtr) (signalIndex : Int) (arguments : List α) :
    List Connection → World α U → Option (World α U)
  | [], w => some w
  | c :: rest, w =>
    if c.sender = sender ∧ c.signalIndex = signalIndex then
      match dispatch env w c.receiver (some sender) signalIndex Call.InvokeMetaMethod
              c.methodIndex arguments with
      | none => none
      | some w1 => deliver env sender signalIndex arguments rest w1
    else
      deliver env sender signalIndex arguments rest w

/-- One emission of signal `signalIndex` by `sender`, as Qt delivers it: through the
connections present when the emission starts. -/
def emitSignal (env : QtEnv) (w : World α U) (sender : QObjectPtr) (signalIndex : Int)
    (arguments : List α) : Option (World α U) :=
  deliver env sender signalIndex arguments w.rt.connections w

/-! ## Sequences of calls -/

/-- A call of one of the four methods of a single proxy. -/
inductive ProxyOp (α U : Type) where
  | bind (sender : QObjectPtr) (signal : String) (callback : Callback α U)
  | bindEvent (sender : QObjectPtr) (event : Nat) (callback : Callback α U)
      (filter : EventFilterFunc)
  | unbind (sender : QObjectPtr) (signal : String)
  | unbindEvent (sender : QObjectPtr) (event : Nat)

/-- Effect of one method call on a proxy and the runtime. -/
def ProxyOp.apply (env : QtEnv) (self : ProxyPtr) (s : QtCallbackProxy α U × QtRuntime) :
    ProxyOp α U → QtCallbackProxy α U × QtRuntime
  | ProxyOp.bind sender signal callback => s.1.bind env self s.2 sender signal callback
  | ProxyOp.bindEvent sender event callback filter =>
    s.1.bindEvent self s.2 sender event callback filter
  | ProxyOp.unbind sender signal => s.1.unbind env self s.2 sender signal
  | ProxyOp.unbindEvent sender event => s.1.unbindEvent self s.2 sender event

/-- The proxy and runtime after a sequence of method calls on a fresh proxy. -/
def runProxy (env : QtEnv) (self : ProxyPtr) (ops : List (ProxyOp α U)) :
    QtCallbackProxy α U × QtRuntime :=
  ops.foldl (ProxyOp.apply env self) (QtCallbackProxy.new α U, QtRuntime.empty)

/-- A call of one of the four public functions. -/
inductive ApiOp (α U : Type) where
  | connectCallback (sender : QObjectPtr) (signal : String) (callback : Callback α U)
  | disconnectCallbacks (sender : QObjectPtr) (signal : String)
  | connectEvent (sender : QObjectPtr) (event : Nat) (callback : Callback α U)
      (filter : EventFilterFunc)
  | disconnectEvent (sender : QObjectPtr) (event : Nat)

/-- The sender a public call is applied to. -/
def ApiOp.sender : ApiOp α U → QObjectPtr
  | ApiOp.connectCallback sender _ _ => sender
  | ApiOp.disconnectCallbacks sender _ => sender
  | ApiOp.connectEvent sender _ _ _ => sender
  | ApiOp.disconnectEvent sender _ => sender

/-- Effect of one public call on the world. -/
def ApiOp.apply (env : QtEnv) (w : World α U) : ApiOp α U → World α U
  | ApiOp.connectCallback sender signal callback =>
    QtSignalTools.connectCallback env w sender signal callback
  | ApiOp.disconnectCallbacks sender signal =>
    QtSignalTools.disconnectCallbacks env w sender signal
  | ApiOp.connectEvent sender event callback filter =>
    QtSignalTools.connectEvent w sender event callback filter
  | ApiOp.disconnectEvent sender event => QtSignalTools.disconnectEvent w sender event

/-- The world after a sequence of public calls, starting with no proxy installed. -/
def runApi (env : QtEnv) (u : U) (ops : List (ApiOp α U)) : World α U :=
  ops.foldl (ApiOp.apply env) (World.empty α u)

end Ops

/-! ## `SafeBinder.h` -/

/-- The weak reference a binder holds, by the kind of its `Receiver` type; the
target is `none` for a null reference. -/
inductive Receiver where
  | QWeakPointer (target : Option Nat)
  | QPointer (target : Option Nat)
  | weak_ptr (target : Option Nat)
deriving DecidableEq, Repr

/-- The address a weak reference was made from. -/
def Receiver.target : Receiver → Option Nat
  | Receiver.QWeakPointer t => t
  | Receiver.QPointer t => t
  | Receiver.weak_ptr t => t

/-- The objects a weak reference may point to: the live object at each address
(`none` once destroyed) and whether it is owned through shared pointers. -/
structure ObjectStore (T : Type) where
  object : Nat → Option T
  shared : Nat → Bool

/-- Destruction of the object at an address. -/
def ObjectStore.destroy {T : Type} (s : ObjectStore T) (a : Nat) : ObjectStore T :=
  { s with object := Function.update s.object a none }

section Safe
variable {T A R U : Type}

/-- Library call `QWeakPointer::toStrongRef()`: non-null for a live object owned by
shared pointers. -/
def QWeakPointer_toStrongRef (s : ObjectStore T) (t : Option Nat) : Option T :=
  t.bind (fun a => if s.shared a then s.object a else none)

/-- Library call `QWeakPointer::data()`: null once the object is deleted. -/
def QWeakPointer_data (s : ObjectStore T) (t : Option Nat) : Option T :=
  t.bind s.object

/-- Library call `QPointer::data()`: null once the object is deleted. -/
def QPointer_data (s : ObjectStore T) (t : Option Nat) : Option T :=
  t.bind s.object

/-- Library call `weak_ptr::lock()`: empty once the last owner is gone. -/
def weak_ptr_lock (s : ObjectStore T) (t : Option Nat) : Option T :=
  t.bind (fun a => if s.shared a then s.object a else none)

/-- The three specialisations of `StrongRef<Receiver>`: construction from the weak
reference followed by `data()`. -/
def StrongRef.data (s : ObjectStore T) : Receiver → Option T
  | Receiver.QWeakPointer ref =>
    let m_strongRef := QWeakPointer_toStrongRef s ref
    let m_weakRef := ref
    match m_strongRef with
    | some o => some o
    | none => QWeakPointer_data s m_weakRef
  | Receiver.QPointer ref => QPointer_data s ref
  | Receiver.weak_ptr ref => weak_ptr_lock s ref

/-- The class `SafeBinder<Receiver, MemberFunc>`; the member function acts on the
receiver, the arguments and the user state. -/
structure SafeBinder (T A R U : Type) where
  m_receiver : Receiver
  m_func : T → A → U → R × U

/-- The function `safe_bind(r, f)`. -/
def safe_bind (r : Receiver) (f : T → A → U → R × U) : SafeBinder T A R U :=
  { m_receiver := r, m_func := f }

/-- The call operator generated by `SAFE_BINDER_CALL_OP`; `default` is `result_type()`. -/
def SafeBinder.call [Inhabited R] (b : SafeBinder T A R U) (s : ObjectStore T) (args : A)
    (u : U) : R × U :=
  match StrongRef.data s b.m_receiver with
  | some obj => b.m_func obj args u
  | none => (default, u)

end Safe

/-! ## Vocabulary of the properties -/

section Vocabulary
variable {α U : Type}

/-- One invocation of a callback on the signal path, in the words of the
specification: with no arguments when the holder has a zero-argument function,
otherwise the typed callable applied to the six payload slots tagged with the
parameter types `paramTypes`. -/
def Callback.invokeWith (cb : Callback α U) (paramTypes : List String) (arguments : List α)
    (u : U) : U :=
  match cb.function with
  | some f => f u
  | none =>
    cb.qtCallback
      [ ⟨paramTypes[0]?, arguments[1]?⟩, ⟨paramTypes[1]?, arguments[2]?⟩,
        ⟨paramTypes[2]?, arguments[3]?⟩, ⟨paramTypes[3]?, arguments[4]?⟩,
        ⟨paramTypes[4]?, arguments[5]?⟩, ⟨paramTypes[5]?, arguments[6]?⟩ ] u

/-- One invocation of a callback on the event path: always without arguments. -/
def Callback.invokeNoArgs (cb : Callback α U) (u : U) : U :=
  match cb.function with
  | some f => f u
  | none => cb.qtCallback [] u

/-- An event binding fires for `(watched, event)`: its sender is the watched
object, its event type is the type of the event and its filter is absent or
returns true. -/
def EventBinding.fires (b : EventBinding α U) (watched : QObjectPtr) (event : QEvent) : Bool :=
  decide (b.sender = watched) && decide (b.eventType = event.type) &&
    (match b.filter with
     | none => true
     | some f => f watched event)

/-- The hook invariant of one proxy: the proxy is installed as event filter on
exactly the senders it holds an event binding for, and at most once on each. -/
def HookInv (self : ProxyPtr) (s : QtCallbackProxy α U × QtRuntime) : Prop :=
  (∀ sender, (sender, self) ∈ s.2.eventFilters ↔ ∃ b ∈ s.1.m_eventBindings, b.sender = sender)
    ∧ s.2.eventFilters.Nodup

/-- The registry invariant: every recorded proxy address was handed out by `new`,
and no two objects record the same proxy. -/
def RegistryInv (w : World α U) : Prop :=
  (∀ s p, w.property s = some p → p < w.nextProxy)
    ∧ (∀ s1 s2 p, w.property s1 = some p → w.property s2 = some p → s1 = s2)

end Vocabulary

/-! ## Concrete data for the examples -/

/-- A small reflection environment: every object has the signal
`valueChanged(int)` at index 4 and no other method; `QObject` has four methods
of its own, so the proxy slot is method 4. -/
def exampleEnv : QtEnv :=
  { normalizedSignature := fun s => s,
    indexOfMethod := fun _ s => if s = "valueChanged(int)" then 4 else -1,
    parameterTypes := fun _ i => if i = 4 then ["int"] else [],
    signature := fun _ i => if i = 4 then "valueChanged(int)" else "",
    methodCount := 4,
    connectSucceeds := fun _ _ _ _ => true,
    QObject_qt_metacall := fun call id => if call = Call.InvokeMetaMethod then id - 4 else id,
    QObject_eventFilter := fun _ _ => false }

/-- A typed callback that appends its first argument to a list of integers. -/
def appendArg : Callback Int (List Int) :=
  { function := none,
    qtCallback := fun args values =>
      match args with
      | ⟨_, some v⟩ :: _ => values ++ [v]
      | _ => values }

/-- A zero-argument callback that appends a fixed number to a list of integers. -/
def appendConst (k : Int) : Callback Int (List Int) :=
  { function := some (fun values => values ++ [k]),
    qtCallback := fun _ values => values }

/-- A proxy with three signal bindings: sender 1, sender 2, sender 1, all for
signal index 4. -/
def exampleProxy : QtCallbackProxy Int (List Int) :=
  { m_bindings :=
      [ { sender := 1, signalIndex := 4, callback := appendConst 10, paramTypes := ["int"] },
        { sender := 2, signalIndex := 4, callback := appendArg, paramTypes := ["int"] },
        { sender := 1, signalIndex := 4, callback := appendConst 30, paramTypes := ["int"] } ],
    m_eventBindings := [] }

/-- An event filter that rejects every event. -/
def rejectAll : QObjectPtr → QEvent → Bool :=
  fun _ _ => false

/-- A proxy with four event bindings for event type 5: on sender 1 without
filter, on sender 1 with the filter `rejectAll`, on sender 1 with a filter that
accepts payload 0, and on sender 2 without filter. -/
def exampleEventProxy : QtCallbackProxy Int (List Int) :=
  { m_bindings := [],
    m_eventBindings :=
      [ { sender := 1, eventType := 5, callback := appendConst 10, filter := none },
        { sender := 1, eventType := 5, callback := appendConst 20, filter := some rejectAll },
        { sender := 1, eventType := 5, callback := appendConst 30,
          filter := some (fun _ e => decide (e.payload = 0)) },
        { sender := 2, eventType := 5, callback := appendConst 40, filter := none } ] }

/-- A store with one `QObject` named `myObject` at address 0, not owned by shared
pointers. -/
def exampleStore : ObjectStore String :=
  { object := fun a => if a = 0 then some "myObject" else none,
    shared := fun _ => false }

/-- The binder `safe_bind(myObject, &QObject::objectName)`: the member function
returns the name and counts its invocations in the user state. -/
def getName : SafeBinder String Unit String Nat :=
  safe_bind (Receiver.QPointer (some 0)) (fun obj _ n => (obj, n + 1))

/-! ## Auxiliary facts about the loops -/

section Lemmas
variable {α U : Type}

theorem unbindLoop_fst (self : ProxyPtr) (m : Int) (sender : QObjectPtr) (c : Int)
    (l : List (Binding α U)) (rt : QtRuntime) :
    (unbindLoop self m sender c l rt).1 =
      l.filter (fun b => decide (¬ (b.sender = sender ∧ b.signalIndex = c))) := by
  induction l generalizing rt with
  | nil => rfl
  | cons b rest ih =>
    by_cases h : b.sender = sender ∧ b.signalIndex = c
    · simp only [unbindLoop, if_pos h, ih]
      rw [List.filter_cons_of_neg (by rw [decide_eq_true_eq]; exact not_not.mpr h)]
    · simp only [unbindLoop, if_neg h, ih]
      rw [List.filter_cons_of_pos (by rw [decide_eq_true_eq]; exact h)]

theorem unbindLoop_no_match (self : ProxyPtr) (m : Int) (sender : QObjectPtr) (c : Int)
    (l : List (Binding α U)) (rt : QtRuntime)
    (h : ∀ b ∈ l, ¬ (b.sender = sender ∧ b.signalIndex = c)) :
    unbindLoop self m sender c l rt = (l, rt) := by
  induction l generalizing rt with
  | nil => rfl
  | cons b rest ih =>
    have hb := h b (List.mem_cons_self _ _)
    have hr := ih rt (fun x hx => h x (List.mem_cons_of_mem _ hx))
    simp only [unbindLoop, if_neg hb, hr]

theorem foldl_invariant {σ ι : Type} (P : σ → Prop) (f : σ → ι → σ)
    (hstep : ∀ s i, P s → P (f s i)) (l : List ι) (s : σ) (hs : P s) : P (l.foldl f s) := by
  induction l generalizing s with
  | nil => exact hs
  | cons i rest ih => exact ih (f s i) (hstep s i hs)

theorem bind_fst_bindings (env : QtEnv) (self : ProxyPtr) (p : QtCallbackProxy α U)
    (rt : QtRuntime) (sender : QObjectPtr) (signal : String) (callback : Callback α U) :
    (p.bind env self rt sender signal callback).1.m_bindings =
      if 0 ≤ qtObjectSignalIndex env sender signal ∧
          env.connectSucceeds sender (qtObjectSignalIndex env sender signal) self env.methodCount
            = true then
        p.m_bindings ++ [{ sender := sender,
                           signalIndex := qtObjectSignalIndex env sender signal,
                           callback := callback,
                           paramTypes :=
                             env.parameterTypes sender (qtObjectSignalIndex env sender signal) }]
      else p.m_bindings := by
  by_cases h1 : qtObjectSignalIndex env sender signal < 0
  · have h0 : ¬ (0 ≤ qtObjectSignalIndex env sender signal) := not_le.mpr h1
    simp [QtCallbackProxy.bind, h1, h0]
  · have h0 : 0 ≤ qtObjectSignalIndex env sender signal := not_lt.mp h1
    by_cases h2 : env.connectSucceeds sender (qtObjectSignalIndex env sender signal) self
        env.methodCount = true
    · simp [QtCallbackProxy.bind, h1, h0, h2, QMetaObject_connect]
    · simp [QtCallbackProxy.bind, h1, h0, h2, QMetaObject_connect]

theorem bind_bindings_nonneg (env : QtEnv) (self : ProxyPtr) (p : QtCallbackProxy α U)
    (rt : QtRuntime) (sender : QObjectPtr) (signal : String) (callback : Callback α U)
    (h : ∀ b ∈ p.m_bindings, 0 ≤ b.signalIndex) :
    ∀ b ∈ (p.bind env self rt sender signal callback).1.m_bindings, 0 ≤ b.signalIndex := by
  intro b hb
  rw [bind_fst_bindings] at hb
  split at hb
  · rename_i hc
    rcases List.mem_append.mp hb with hb | hb
    · exact h b hb
    · rw [List.mem_singleton.mp hb]
      exact hc.1
  · exact h b hb

theorem runProxy_bindings_nonneg (env : QtEnv) (self : ProxyPtr) (ops : List (ProxyOp α U)) :
    ∀ b ∈ (runProxy env self ops).1.m_bindings, 0 ≤ b.signalIndex := by
  unfold runProxy
  apply foldl_invariant (fun s : QtCallbackProxy α U × QtRuntime =>
    ∀ b ∈ s.1.m_bindings, 0 ≤ b.signalIndex)
  · intro s op hs
    cases op with
    | bind sender signal callback =>
      exact bind_bindings_nonneg env self s.1 s.2 sender signal callback hs
    | bindEvent sender event callback filter => exact hs
    | unbind sender signal =>
      intro b hb
      simp only [ProxyOp.apply, QtCallbackProxy.unbind, unbindLoop_fst] at hb
      exact hs b (List.mem_of_mem_filter hb)
    | unbindEvent sender event => exact hs
  · intro b hb
    simp [QtCallbackProxy.new] at hb

end Lemmas

/-! ## Channel bindings -/

section ChannelTheorems
variable {α U : Type}

/-- C2: `unbind(sender, signal)` keeps the bindings that do not match
`(sender, signalIndex)`, unmodified and in their order, and removes every
binding that matches; the event bindings are not touched. -/
theorem unbind_removes_exactly_matching (env : QtEnv) (self : ProxyPtr)
    (p : QtCallbackProxy α U) (rt : QtRuntime) (sender : QObjectPtr) (signal : String) :
    (p.unbind env self rt sender signal).1.m_bindings =
        p.m_bindings.filter (fun b =>
          decide (¬ (b.sender = sender ∧ b.signalIndex = qtObjectSignalIndex env sender signal)))
      ∧ (p.unbind env self rt sender signal).1.m_bindings.Sublist p.m_bindings
      ∧ (∀ b ∈ (p.unbind env self rt sender signal).1.m_bindings,
          ¬ (b.sender = sender ∧ b.signalIndex = qtObjectSignalIndex env sender signal))
      ∧ (∀ b ∈ p.m_bindings,
          ¬ (b.sender = sender ∧ b.signalIndex = qtObjectSignalIndex env sender signal) →
          b ∈ (p.unbind env self rt sender signal).1.m_bindings)
      ∧ (p.unbind env self rt sender signal).1.m_eventBindings = p.m_eventBindings := by
  have e : (p.unbind env self rt sender signal).1.m_bindings =
      p.m_bindings.filter (fun b =>
        decide (¬ (b.sender = sender ∧ b.signalIndex = qtObjectSignalIndex env sender signal))) := by
    simp only [QtCallbackProxy.unbind, unbindLoop_fst]
  refine ⟨e, ?_, ?_, ?_, rfl⟩
  · rw [e]; exact List.filter_sublist _
  · intro b hb
    rw [e] at hb
    have := (List.mem_filter.mp hb).2
    rw [decide_eq_true_eq] at this
    exact this
  · intro b hb hn
    rw [e]
    exact List.mem_filter.mpr ⟨hb, by rw [decide_eq_true_eq]; exact hn⟩

/-- C4: `bind(sender, signal, callback)` appends exactly one binding (sender,
resolved index, callback, captured parameter types) when the signal resolves to
an index `>= 0` and the connect succeeds, writing no warning; otherwise both
tables stay as they were and exactly one warning is written.  The method is
total and has no error result. -/
theorem bind_appends_iff_resolved_and_connected (env : QtEnv) (self : ProxyPtr)
    (p : QtCallbackProxy α U) (rt : QtRuntime) (sender : QObjectPtr) (signal : String)
    (callback : Callback α U) :
    if 0 ≤ qtObjectSignalIndex env sender signal ∧
        env.connectSucceeds sender (qtObjectSignalIndex env sender signal) self env.methodCount
          = true then
      (p.bind env self rt sender signal callback).1.m_bindings =
          p.m_bindings ++ [{ sender := sender,
                             signalIndex := qtObjectSignalIndex env sender signal,
                             callback := callback,
                             paramTypes :=
                               env.parameterTypes sender (qtObjectSignalIndex env sender signal) }]
        ∧ (p.bind env self rt sender signal callback).1.m_eventBindings = p.m_eventBindings
        ∧ (p.bind env self rt sender signal callback).2.warnings = rt.warnings
    else
      (p.bind env self rt sender signal callback).1.m_bindings = p.m_bindings
        ∧ (p.bind env self rt sender signal callback).1.m_eventBindings = p.m_eventBindings
        ∧ (p.bind env self rt sender signal callback).2.warnings =
            rt.warnings ++
              [if qtObjectSignalIndex env sender signal < 0 then
                 Diagnostic.noSuchSignal signal sender
               else Diagnostic.unableToConnect signal sender] := by
  by_cases h1 : qtObjectSignalIndex env sender signal < 0
  · have h0 : ¬ (0 ≤ qtObjectSignalIndex env sender signal) := not_le.mpr h1
    simp [QtCallbackProxy.bind, h1, h0, QtRuntime.warn]
  · have h0 : 0 ≤ qtObjectSignalIndex env sender signal := not_lt.mp h1
    by_cases h2 : env.connectSucceeds sender (qtObjectSignalIndex env sender signal) self
        env.methodCount = true
    · simp [QtCallbackProxy.bind, h1, h0, h2, QMetaObject_connect]
    · simp [QtCallbackProxy.bind, h1, h0, h2, QMetaObject_connect, QtRuntime.warn]

/-- C9: in every state reached from a fresh proxy by bind and unbind calls all
stored bindings have a signal index `>= 0`, so `unbind(sender, signal)` with a
signal that does not resolve changes neither the proxy nor the runtime: no
binding is removed and no low-level call is made. -/
theorem unbind_unresolved_changes_nothing (env : QtEnv) (self : ProxyPtr)
    (ops : List (ProxyOp α U)) (sender : QObjectPtr) (signal : String)
    (h : qtObjectSignalIndex env sender signal < 0) :
    (∀ b ∈ (runProxy env self ops).1.m_bindings, 0 ≤ b.signalIndex)
      ∧ ((runProxy env self ops).1.unbind env self (runProxy env self ops).2 sender signal).1
          = (runProxy env self ops).1
      ∧ ((runProxy env self ops).1.unbind env self (runProxy env self ops).2 sender signal).2
          = (runProxy env self ops).2 := by
  have hn := runProxy_bindings_nonneg env self ops
  have hm : ∀ b ∈ (runProxy env self ops).1.m_bindings,
      ¬ (b.sender = sender ∧ b.signalIndex = qtObjectSignalIndex env sender signal) := by
    intro b hb hc
    have := hn b hb
    omega
  refine ⟨hn, ?_, ?_⟩
  · simp only [QtCallbackProxy.unbind, unbindLoop_no_match _ _ _ _ _ _ hm]
  · simp only [QtCallbackProxy.unbind, unbindLoop_no_match _ _ _ _ _ _ hm]

end ChannelTheorems

section DispatchLemmas
variable {α U : Type}

theorem matchBindingLoop_eq_find (s : QObjectPtr) (idx : Int) (l : List (Binding α U)) :
    matchBindingLoop (some s) idx l =
      l.find? (fun b => decide (b.sender = s ∧ b.signalIndex = idx)) := by
  induction l with
  | nil => rfl
  | cons b rest ih =>
    by_cases h : b.sender = s ∧ b.signalIndex = idx
    · have h1 : some b.sender = some s ∧ b.signalIndex = idx := ⟨by rw [h.1], h.2⟩
      simp only [matchBindingLoop, if_pos h1]
      rw [List.find?_cons_of_pos _ (by rw [decide_eq_true_eq]; exact h)]
    · have h1 : ¬ (some b.sender = some s ∧ b.signalIndex = idx) :=
        fun hc => h ⟨Option.some.inj hc.1, hc.2⟩
      simp only [matchBindingLoop, if_neg h1, ih]
      rw [List.find?_cons_of_neg _ (by rw [decide_eq_true_eq]; exact h)]

theorem genericArgs_eq (b : Binding α U) (arguments : List α) (u : U)
    (h : b.callback.function = none) :
    b.callback.qtCallback (genericArgs b arguments) u =
      b.callback.invokeWith b.paramTypes arguments u := by
  simp [Callback.invokeWith, h, genericArgs, Binding.paramType]

theorem qt_metacall_slot (env : QtEnv) (p : QtCallbackProxy α U) (s : QObjectPtr) (idx : Int)
    (methodId : Int) (arguments : List α) (u : U) (hres : 0 ≤ idx)
    (hslot : env.QObject_qt_metacall Call.InvokeMetaMethod methodId = 0) :
    p.qt_metacall env (some s) idx Call.InvokeMetaMethod methodId arguments u =
      match p.m_bindings.find? (fun b => decide (b.sender = s ∧ b.signalIndex = idx)) with
      | some b => some ⟨-1, [], b.callback.invokeWith b.paramTypes arguments u⟩
      | none =>
        some ⟨-1, [failInvoke ("Unable to find matching binding for signal "
                      ++ env.signature s idx)], u⟩ := by
  have hidx : ¬ idx < 0 := not_lt.mpr hres
  unfold QtCallbackProxy.qt_metacall QtCallbackProxy.matchBinding
  rw [matchBindingLoop_eq_find]
  simp only [hslot, hidx, if_false, lt_self_iff_false, if_true, reduceCtorEq]
  cases hf : p.m_bindings.find? (fun b => decide (b.sender = s ∧ b.signalIndex = idx)) with
  | none => simp
  | some b =>
    cases hc : b.callback.function with
    | none => simp [hc, genericArgs_eq b arguments u hc]
    | some f => simp [hc, Callback.invokeWith]

theorem find_append_new (l : List (Binding α U)) (b : Binding α U) (s : QObjectPtr) (idx : Int)
    (hl : ∀ x ∈ l, ¬ (x.sender = s ∧ x.signalIndex = idx))
    (hb : b.sender = s ∧ b.signalIndex = idx) (rest : List (Binding α U)) :
    (l ++ b :: rest).find? (fun x => decide (x.sender = s ∧ x.signalIndex = idx)) = some b := by
  induction l with
  | nil =>
    exact List.find?_cons_of_pos _ (by rw [decide_eq_true_eq]; exact hb)
  | cons a t ih =>
    have ha := hl a (List.mem_cons_self _ _)
    rw [List.cons_append, List.find?_cons_of_neg _ (by rw [decide_eq_true_eq]; exact ha)]
    exact ih (fun x hx => hl x (List.mem_cons_of_mem _ hx))

theorem find_none_of_filter (l : List (Binding α U)) (s : QObjectPtr) (idx : Int) :
    (l.filter (fun b => decide (¬ (b.sender = s ∧ b.signalIndex = idx)))).find?
      (fun x => decide (x.sender = s ∧ x.signalIndex = idx)) = none := by
  rw [List.find?_eq_none]
  intro x hx
  have := (List.mem_filter.mp hx).2
  rw [decide_eq_true_eq] at this
  rw [decide_eq_true_eq]
  exact this

end DispatchLemmas

section WorldLemmas
variable {α U : Type}

theorem unbindLoop_warnings (self : ProxyPtr) (m : Int) (sender : QObjectPtr) (c : Int)
    (l : List (Binding α U)) (rt : QtRuntime) :
    (unbindLoop self m sender c l rt).2.warnings = rt.warnings := by
  induction l generalizing rt with
  | nil => rfl
  | cons b rest ih =>
    by_cases h : b.sender = sender ∧ b.signalIndex = c
    · simp only [unbindLoop, if_pos h, ih, QMetaObject_disconnect]
    · simp only [unbindLoop, if_neg h, ih]

theorem install_user (w : World α U) (s : QObjectPtr) :
    (installCallbackProxy w s).2.user = w.user := by
  unfold installCallbackProxy
  split <;> rfl

theorem install_rt (w : World α U) (s : QObjectPtr) :
    (installCallbackProxy w s).2.rt = w.rt := by
  unfold installCallbackProxy
  split <;> rfl

theorem connectCallback_heap (env : QtEnv) (w : World α U) (sender : QObjectPtr)
    (signal : String) (callback : Callback α U) :
    (connectCallback env w sender signal callback).heap (installCallbackProxy w sender).1 =
      (((installCallbackProxy w sender).2.heap (installCallbackProxy w sender).1).bind env
        (installCallbackProxy w sender).1 (installCallbackProxy w sender).2.rt
        sender signal callback).1 := by
  simp [connectCallback]

theorem disconnectCallbacks_heap (env : QtEnv) (w : World α U) (sender : QObjectPtr)
    (signal : String) :
    (disconnectCallbacks env w sender signal).heap (installCallbackProxy w sender).1 =
      (((installCallbackProxy w sender).2.heap (installCallbackProxy w sender).1).unbind env
        (installCallbackProxy w sender).1 (installCallbackProxy w sender).2.rt
        sender signal).1 := by
  simp [disconnectCallbacks]

theorem dispatch_slot (env : QtEnv) (w : World α U) (receiver : ProxyPtr) (s : QObjectPtr)
    (idx : Int) (methodId : Int) (arguments : List α) (hres : 0 ≤ idx)
    (hslot : env.QObject_qt_metacall Call.InvokeMetaMethod methodId = 0) :
    dispatch env w receiver (some s) idx Call.InvokeMetaMethod methodId arguments =
      match (w.heap receiver).m_bindings.find?
          (fun b => decide (b.sender = s ∧ b.signalIndex = idx)) with
      | some b =>
        some { w with rt := { w.rt with warnings := w.rt.warnings ++ [] },
                      user := b.callback.invokeWith b.paramTypes arguments w.user }
      | none =>
        some { w with rt := { w.rt with warnings := w.rt.warnings ++
                  [failInvoke ("Unable to find matching binding for signal "
                      ++ env.signature s idx)] },
                      user := w.user } := by
  unfold dispatch
  rw [qt_metacall_slot env _ s idx methodId arguments w.user hres hslot]
  cases (w.heap receiver).m_bindings.find?
      (fun b => decide (b.sender = s ∧ b.signalIndex = idx)) <;> rfl

theorem install_fst_of_property (w : World α U) (s : QObjectPtr) (p : ProxyPtr)
    (h : w.property s = some p) : installCallbackProxy w s = (p, w) := by
  unfold installCallbackProxy
  rw [h]

theorem install_property (w : World α U) (s : QObjectPtr) :
    (installCallbackProxy w s).2.property s = some (installCallbackProxy w s).1 := by
  unfold installCallbackProxy
  split
  · rename_i p h
    exact h
  · simp

theorem connectCallback_property (env : QtEnv) (w : World α U) (sender : QObjectPtr)
    (signal : String) (callback : Callback α U) :
    (connectCallback env w sender signal callback).property sender =
      some (installCallbackProxy w sender).1 := by
  simp [connectCallback, install_property]

theorem dispatch_after_connect (env : QtEnv) (w : World α U)
    (sender : QObjectPtr) (signal : String) (callback : Callback α U) (methodId : Int)
    (arguments : List α)
    (hres : 0 ≤ qtObjectSignalIndex env sender signal)
    (hconn : env.connectSucceeds sender (qtObjectSignalIndex env sender signal)
        (installCallbackProxy w sender).1 env.methodCount = true)
    (hslot : env.QObject_qt_metacall Call.InvokeMetaMethod methodId = 0)
    (hnew : ∀ b ∈ ((installCallbackProxy w sender).2.heap
        (installCallbackProxy w sender).1).m_bindings,
        ¬ (b.sender = sender ∧ b.signalIndex = qtObjectSignalIndex env sender signal)) :
    dispatch env (connectCallback env w sender signal callback)
        (installCallbackProxy w sender).1 (some sender)
        (qtObjectSignalIndex env sender signal) Call.InvokeMetaMethod methodId arguments
      = some { connectCallback env w sender signal callback with
          rt := { (connectCallback env w sender signal callback).rt with
            warnings := (connectCallback env w sender signal callback).rt.warnings ++ [] },
          user := callback.invokeWith
            (env.parameterTypes sender (qtObjectSignalIndex env sender signal)) arguments
            (connectCallback env w sender signal callback).user } := by
  rw [dispatch_slot env _ _ sender _ methodId arguments hres hslot, connectCallback_heap,
    bind_fst_bindings, if_pos ⟨hres, hconn⟩, find_append_new _ _ sender _ hnew ⟨rfl, rfl⟩ []]

theorem connectCallback_user (env : QtEnv) (w : World α U) (sender : QObjectPtr)
    (signal : String) (callback : Callback α U) :
    (connectCallback env w sender signal callback).user = w.user := by
  simp [connectCallback, install_user]

theorem connectCallback_warnings (env : QtEnv) (w : World α U) (sender : QObjectPtr)
    (signal : String) (callback : Callback α U)
    (hres : 0 ≤ qtObjectSignalIndex env sender signal)
    (hconn : env.connectSucceeds sender (qtObjectSignalIndex env sender signal)
        (installCallbackProxy w sender).1 env.methodCount = true) :
    (connectCallback env w sender signal callback).rt.warnings = w.rt.warnings := by
  simp [connectCallback, QtCallbackProxy.bind, not_lt.mpr hres, hconn, QMetaObject_connect,
    install_rt]

theorem dispatch_after_disconnect (env : QtEnv) (w : World α U)
    (sender : QObjectPtr) (signal : String) (methodId : Int) (arguments : List α)
    (hres : 0 ≤ qtObjectSignalIndex env sender signal)
    (hslot : env.QObject_qt_metacall Call.InvokeMetaMethod methodId = 0) :
    ∃ w1, dispatch env (disconnectCallbacks env w sender signal)
          (installCallbackProxy w sender).1 (some sender)
          (qtObjectSignalIndex env sender signal) Call.InvokeMetaMethod methodId arguments
        = some w1
      ∧ w1.user = w.user
      ∧ w1.rt.warnings = w.rt.warnings ++
          [failInvoke ("Unable to find matching binding for signal "
            ++ env.signature sender (qtObjectSignalIndex env sender signal))] := by
  rw [dispatch_slot env _ _ sender _ methodId arguments hres hslot, disconnectCallbacks_heap]
  simp only [QtCallbackProxy.unbind, unbindLoop_fst, find_none_of_filter]
  refine ⟨_, rfl, ?_, ?_⟩
  · simp [disconnectCallbacks, install_user]
  · simp [disconnectCallbacks, QtCallbackProxy.unbind, unbindLoop_warnings, install_rt]

theorem dispatch_first (env : QtEnv) (w : World α U) (receiver : ProxyPtr) (s : QObjectPtr)
    (idx : Int) (methodId : Int) (arguments : List α) (hres : 0 ≤ idx)
    (hslot : env.QObject_qt_metacall Call.InvokeMetaMethod methodId = 0)
    (l rest : List (Binding α U)) (b : Binding α U)
    (hw : (w.heap receiver).m_bindings = l ++ b :: rest)
    (hl : ∀ x ∈ l, ¬ (x.sender = s ∧ x.signalIndex = idx))
    (hb : b.sender = s ∧ b.signalIndex = idx) :
    dispatch env w receiver (some s) idx Call.InvokeMetaMethod methodId arguments =
      some { w with rt := { w.rt with warnings := w.rt.warnings ++ [] },
                    user := b.callback.invokeWith b.paramTypes arguments w.user } := by
  rw [dispatch_slot env _ _ s _ methodId arguments hres hslot, hw, find_append_new l b s idx hl hb]

theorem connectCallback_bindings (env : QtEnv) (w : World α U) (sender : QObjectPtr)
    (signal : String) (callback : Callback α U)
    (hres : 0 ≤ qtObjectSignalIndex env sender signal)
    (hconn : env.connectSucceeds sender (qtObjectSignalIndex env sender signal)
        (installCallbackProxy w sender).1 env.methodCount = true) :
    ((connectCallback env w sender signal callback).heap
        (installCallbackProxy w sender).1).m_bindings =
      ((installCallbackProxy w sender).2.heap (installCallbackProxy w sender).1).m_bindings ++
        [{ sender := sender, signalIndex := qtObjectSignalIndex env sender signal,
           callback := callback,
           paramTypes := env.parameterTypes sender (qtObjectSignalIndex env sender signal) }] := by
  rw [connectCallback_heap, bind_fst_bindings, if_pos ⟨hres, hconn⟩]

theorem connectCallback_connections (env : QtEnv) (w : World α U) (sender : QObjectPtr)
    (signal : String) (callback : Callback α U)
    (hres : 0 ≤ qtObjectSignalIndex env sender signal)
    (hconn : env.connectSucceeds sender (qtObjectSignalIndex env sender signal)
        (installCallbackProxy w sender).1 env.methodCount = true) :
    (connectCallback env w sender signal callback).rt.connections =
      w.rt.connections ++ [⟨sender, qtObjectSignalIndex env sender signal,
        (installCallbackProxy w sender).1, env.methodCount⟩] := by
  simp [connectCallback, QtCallbackProxy.bind, not_lt.mpr hres, hconn, QMetaObject_connect,
    install_rt]

theorem connectCallback_install (env : QtEnv) (w : World α U) (sender : QObjectPtr)
    (signal : String) (callback : Callback α U) :
    installCallbackProxy (connectCallback env w sender signal callback) sender =
      ((installCallbackProxy w sender).1, connectCallback env w sender signal callback) :=
  install_fst_of_property _ sender _ (connectCallback_property env w sender signal callback)

theorem deliver_two_first (env : QtEnv) (w : World α U) (receiver : ProxyPtr) (s : QObjectPtr)
    (idx : Int) (methodId : Int) (arguments : List α) (hres : 0 ≤ idx)
    (hslot : env.QObject_qt_metacall Call.InvokeMetaMethod methodId = 0)
    (l rest : List (Binding α U)) (b : Binding α U)
    (hw : (w.heap receiver).m_bindings = l ++ b :: rest)
    (hl : ∀ x ∈ l, ¬ (x.sender = s ∧ x.signalIndex = idx))
    (hb : b.sender = s ∧ b.signalIndex = idx) :
    ∃ w2, deliver env s idx arguments
          [⟨s, idx, receiver, methodId⟩, ⟨s, idx, receiver, methodId⟩] w = some w2
      ∧ w2.user = b.callback.invokeWith b.paramTypes arguments
          (b.callback.invokeWith b.paramTypes arguments w.user) := by
  have d1 := dispatch_first env w receiver s idx methodId arguments hres hslot l rest b hw hl hb
  have d2 := dispatch_first env
    { w with rt := { w.rt with warnings := w.rt.warnings ++ [] },
             user := b.callback.invokeWith b.paramTypes arguments w.user }
    receiver s idx methodId arguments hres hslot l rest b hw hl hb
  simp only [deliver, and_self, if_true, d1, d2]
  exact ⟨_, rfl, rfl⟩

theorem emit_scenario (env : QtEnv) (sender : QObjectPtr) (signal : String)
    (hres : 0 ≤ qtObjectSignalIndex env sender signal)
    (hconn : env.connectSucceeds sender (qtObjectSignalIndex env sender signal) 0
        env.methodCount = true)
    (hslot : env.QObject_qt_metacall Call.InvokeMetaMethod env.methodCount = 0) :
    ((emitSignal env (connectCallback env (World.empty Int ([] : List Int)) sender signal
          appendArg) sender (qtObjectSignalIndex env sender signal) [0, 42]).bind
        (fun w2 =>
          (emitSignal env (disconnectCallbacks env w2 sender signal) sender
            (qtObjectSignalIndex env sender signal) [0, 43]).map
            (fun w4 => (w2.user, w4.user, w4.rt.warnings))))
      = some ([42], [42], []) := by
  have hneg : ¬ qtObjectSignalIndex env sender signal < 0 := not_lt.mpr hres
  simp [emitSignal, deliver, dispatch, connectCallback, disconnectCallbacks,
    installCallbackProxy, World.empty, QtCallbackProxy.bind, QtCallbackProxy.unbind, unbindLoop,
    QMetaObject_connect, QMetaObject_disconnect, QtCallbackProxy.qt_metacall,
    QtCallbackProxy.matchBinding, matchBindingLoop, QtCallbackProxy.new, QtRuntime.empty,
    hneg, hconn, hslot, appendArg, genericArgs, Binding.paramType]

end WorldLemmas

section DispatchTheorems
variable {α U : Type}

/-- Single binding: when the signal resolves, the connect succeeds and the proxy of
the sender holds no earlier binding for the same sender and signal index, then
`connectCallback(sender, signal, callback)` followed by one dispatch into that
proxy for this sender and signal index invokes the new callback exactly once
(zero-argument function without arguments, typed callable with the payload slots
tagged by the parameter types of the signal) and writes no warning. -/
theorem connectCallback_then_dispatch_invokes_once (env : QtEnv) (w : World α U)
    (sender : QObjectPtr) (signal : String) (callback : Callback α U) (methodId : Int)
    (arguments : List α)
    (hres : 0 ≤ qtObjectSignalIndex env sender signal)
    (hconn : env.connectSucceeds sender (qtObjectSignalIndex env sender signal)
        (installCallbackProxy w sender).1 env.methodCount = true)
    (hslot : env.QObject_qt_metacall Call.InvokeMetaMethod methodId = 0)
    (hnew : ∀ b ∈ ((installCallbackProxy w sender).2.heap
        (installCallbackProxy w sender).1).m_bindings,
        ¬ (b.sender = sender ∧ b.signalIndex = qtObjectSignalIndex env sender signal)) :
    ∃ w1, dispatch env (connectCallback env w sender signal callback)
          (installCallbackProxy w sender).1 (some sender)
          (qtObjectSignalIndex env sender signal) Call.InvokeMetaMethod methodId arguments
        = some w1
      ∧ w1.user = callback.invokeWith
          (env.parameterTypes sender (qtObjectSignalIndex env sender signal)) arguments w.user
      ∧ w1.rt.warnings = w.rt.warnings := by
  refine ⟨_, dispatch_after_connect env w sender signal callback methodId arguments hres hconn
    hslot hnew, ?_, ?_⟩
  · simp [connectCallback_user]
  · simp [connectCallback_warnings env w sender signal callback hres hconn]

end DispatchTheorems

section DispatchTheorems2
variable {α U : Type}

/-- Single binding, at the example environment: sender 1, a fresh world and the
callback that appends its argument. -/
theorem connectCallback_then_dispatch_invokes_once_witness :
    ∃ w1, dispatch exampleEnv
          (connectCallback exampleEnv (World.empty Int ([] : List Int)) 1 "2valueChanged(int)"
            appendArg)
          (installCallbackProxy (World.empty Int ([] : List Int)) 1).1 (some 1)
          (qtObjectSignalIndex exampleEnv 1 "2valueChanged(int)") Call.InvokeMetaMethod 4 [0, 42]
        = some w1
      ∧ w1.user = appendArg.invokeWith
          (exampleEnv.parameterTypes 1 (qtObjectSignalIndex exampleEnv 1 "2valueChanged(int)"))
          [0, 42] (World.empty Int ([] : List Int)).user
      ∧ w1.rt.warnings = (World.empty Int ([] : List Int)).rt.warnings :=
  connectCallback_then_dispatch_invokes_once exampleEnv (World.empty Int ([] : List Int)) 1
    "2valueChanged(int)" appendArg 4 [0, 42] (by decide) (by rfl) (by decide)
    (by intro b hb; simp [installCallbackProxy, World.empty, QtCallbackProxy.new] at hb)

/-- C1 (the code at the failing input): the signal resolves and both connects
succeed; `connectCallback` of `appendArg` after an earlier `connectCallback` of
`appendConst 7` for the same sender and signal, followed by one dispatch with
payload 42, does not end in the state one invocation of the callback just bound
gives (`[42]`): it runs the earlier callback (list `[7]`).  One emission through
the two connections runs the earlier callback twice and the later one never
(list `[7, 7]`).  The event path, by contrast, runs both callbacks bound to one
sender and event type, once each (list `[7, 8]`). -/
theorem connectCallback_dispatch_runs_earlier_binding :
    (0 ≤ qtObjectSignalIndex exampleEnv 1 "2valueChanged(int)")
      ∧ (∀ receiver, exampleEnv.connectSucceeds 1
            (qtObjectSignalIndex exampleEnv 1 "2valueChanged(int)") receiver
            exampleEnv.methodCount = true)
      ∧ (¬ ∃ w1, dispatch exampleEnv
            (connectCallback exampleEnv
              (connectCallback exampleEnv (World.empty Int ([] : List Int)) 1
                "2valueChanged(int)" (appendConst 7))
              1 "2valueChanged(int)" appendArg)
            0 (some 1) 4 Call.InvokeMetaMethod 4 [0, 42] = some w1
          ∧ w1.user = appendArg.invokeWith (exampleEnv.parameterTypes 1 4) [0, 42] [])
      ∧ (dispatch exampleEnv
            (connectCallback exampleEnv
              (connectCallback exampleEnv (World.empty Int ([] : List Int)) 1
                "2valueChanged(int)" (appendConst 7))
              1 "2valueChanged(int)" appendArg)
            0 (some 1) 4 Call.InvokeMetaMethod 4 [0, 42]).map World.user = some [7]
      ∧ appendArg.invokeWith (exampleEnv.parameterTypes 1 4) [0, 42] [] = [42]
      ∧ (emitSignal exampleEnv
            (connectCallback exampleEnv
              (connectCallback exampleEnv (World.empty Int ([] : List Int)) 1
                "2valueChanged(int)" (appendConst 7))
              1 "2valueChanged(int)" appendArg)
            1 4 [0, 42]).map World.user = some [7, 7]
      ∧ (QtCallbackProxy.eventFilter exampleEnv
            ((connectEvent
              (connectEvent (World.empty Int ([] : List Int)) 1 5 (appendConst 7) none)
              1 5 (appendConst 8) none).heap 0)
            1 ⟨5, 0⟩ []).2 = [7, 8] := by
  refine ⟨by decide, fun _ => rfl, ?_, by rfl, by rfl, by rfl, by rfl⟩
  rintro ⟨w1, h1, h2⟩
  have h3 : (dispatch exampleEnv
      (connectCallback exampleEnv
        (connectCallback exampleEnv (World.empty Int ([] : List Int)) 1
          "2valueChanged(int)" (appendConst 7))
        1 "2valueChanged(int)" appendArg)
      0 (some 1) 4 Call.InvokeMetaMethod 4 [0, 42]).map World.user = some [7] := rfl
  rw [h1, Option.map_some', h2] at h3
  exact absurd h3 (by decide)

end DispatchTheorems2

section DispatchTheorems3
variable {α U : Type}

/-- C3: after `disconnectCallbacks(sender, signal)` for a signal that resolves, a
dispatch into the proxy of the sender for that sender and signal index invokes
no callback (the user state is unchanged) and writes exactly one line to
`qWarning()`: "Failed to invoke callback" with the text "Unable to find matching
binding for signal " followed by the signature of the signal.  In the scenario
with the callback that appends its argument: connect, dispatch 42, disconnect,
dispatch 43 gives the list `[42]` after the first dispatch and still `[42]` at
the end.  When the two triggers are emissions delivered through the
connections, the lists are the same and the second emission, finding no
connection left, reaches no proxy and writes nothing. -/
theorem disconnect_then_dispatch_invokes_nothing (env : QtEnv) (w : World α U)
    (sender : QObjectPtr) (signal : String) (methodId : Int) (arguments : List α)
    (hres : 0 ≤ qtObjectSignalIndex env sender signal)
    (hslot : env.QObject_qt_metacall Call.InvokeMetaMethod methodId = 0) :
    (∃ w1, dispatch env (disconnectCallbacks env w sender signal)
            (installCallbackProxy w sender).1 (some sender)
            (qtObjectSignalIndex env sender signal) Call.InvokeMetaMethod methodId arguments
          = some w1
        ∧ w1.user = w.user
        ∧ w1.rt.warnings = w.rt.warnings ++
            [Diagnostic.failedToInvoke ("Unable to find matching binding for signal "
              ++ env.signature sender (qtObjectSignalIndex env sender signal))])
      ∧ (env.connectSucceeds sender (qtObjectSignalIndex env sender signal) 0 env.methodCount
            = true →
          ((dispatch env (connectCallback env (World.empty Int ([] : List Int)) sender signal
                appendArg) 0 (some sender) (qtObjectSignalIndex env sender signal)
                Call.InvokeMetaMethod methodId [0, 42]).bind (fun w2 =>
              (dispatch env (disconnectCallbacks env w2 sender signal) 0 (some sender)
                (qtObjectSignalIndex env sender signal) Call.InvokeMetaMethod methodId
                [0, 43]).map (fun w4 => (w2.user, w4.user)))) = some ([42], [42]))
      ∧ (env.connectSucceeds sender (qtObjectSignalIndex env sender signal) 0 env.methodCount
            = true →
          env.QObject_qt_metacall Call.InvokeMetaMethod env.methodCount = 0 →
          ((emitSignal env (connectCallback env (World.empty Int ([] : List Int)) sender signal
                appendArg) sender (qtObjectSignalIndex env sender signal) [0, 42]).bind
              (fun w2 =>
                (emitSignal env (disconnectCallbacks env w2 sender signal) sender
                  (qtObjectSignalIndex env sender signal) [0, 43]).map
                  (fun w4 => (w2.user, w4.user, w4.rt.warnings))))
            = some ([42], [42], [])) := by
  refine ⟨dispatch_after_disconnect env w sender signal methodId arguments hres hslot, ?_, ?_⟩
  · intro hconn
    have e1 := dispatch_after_connect env (World.empty Int ([] : List Int)) sender signal
      appendArg methodId [0, 42] hres hconn hslot
      (by intro b hb; simp [installCallbackProxy, World.empty, QtCallbackProxy.new] at hb)
    have hp : (installCallbackProxy (World.empty Int ([] : List Int)) sender).1 = 0 := rfl
    rw [hp] at e1
    obtain ⟨w2, e2, hprop, huser⟩ : ∃ w2 : World Int (List Int),
        dispatch env
            (connectCallback env (World.empty Int ([] : List Int)) sender signal appendArg)
            0 (some sender) (qtObjectSignalIndex env sender signal) Call.InvokeMetaMethod
            methodId [0, 42] = some w2
          ∧ w2.property sender = some 0 ∧ w2.user = [42] :=
      ⟨_, e1,
        connectCallback_property env (World.empty Int ([] : List Int)) sender signal appendArg,
        by simp only [connectCallback_user]; rfl⟩
    rw [e2]
    simp only [Option.some_bind]
    obtain ⟨w4, e4, hu, -⟩ :=
      dispatch_after_disconnect env w2 sender signal methodId [0, 43] hres hslot
    rw [install_fst_of_property w2 sender 0 hprop] at e4
    rw [e4, Option.map_some', hu, huser]
  · intro hconn hslot0
    exact emit_scenario env sender signal hres hconn hslot0

/-- C3 (witness): the statement at the example environment, sender 1 and a fresh
world; the line written is "Unable to find matching binding for signal
valueChanged(int)". -/
theorem disconnect_then_dispatch_invokes_nothing_witness :
    (∃ w1, dispatch exampleEnv
            (disconnectCallbacks exampleEnv (World.empty Int ([] : List Int)) 1
              "2valueChanged(int)")
            0 (some 1) 4 Call.InvokeMetaMethod 4 [0, 43] = some w1
        ∧ w1.user = []
        ∧ w1.rt.warnings =
            [Diagnostic.failedToInvoke
              "Unable to find matching binding for signal valueChanged(int)"])
      ∧ ((dispatch exampleEnv (connectCallback exampleEnv (World.empty Int ([] : List Int)) 1
                "2valueChanged(int)" appendArg) 0 (some 1) 4 Call.InvokeMetaMethod 4
                [0, 42]).bind (fun w2 =>
              (dispatch exampleEnv (disconnectCallbacks exampleEnv w2 1 "2valueChanged(int)") 0
                (some 1) 4 Call.InvokeMetaMethod 4 [0, 43]).map
                (fun w4 => (w2.user, w4.user))))
            = some ([42], [42])
      ∧ ((emitSignal exampleEnv (connectCallback exampleEnv (World.empty Int ([] : List Int)) 1
                "2valueChanged(int)" appendArg) 1 4 [0, 42]).bind
              (fun w2 =>
                (emitSignal exampleEnv (disconnectCallbacks exampleEnv w2 1 "2valueChanged(int)")
                  1 4 [0, 43]).map
                  (fun w4 => (w2.user, w4.user, w4.rt.warnings))))
            = some ([42], [42], []) := by
  have h := disconnect_then_dispatch_invokes_nothing exampleEnv (World.empty Int ([] : List Int))
    1 "2valueChanged(int)" 4 [0, 43] (by decide) (by decide)
  obtain ⟨w1, e1, hu, hw⟩ := h.1
  exact ⟨⟨w1, e1, hu, hw.trans (by decide)⟩, h.2.1 rfl, h.2.2 rfl (by decide)⟩

end DispatchTheorems3

section FirstMatch
variable {α U : Type}

/-- C10: `matchBinding` returns the first binding in insertion order that matches
`(sender, signalIndex)`.  When `f` and then `g` are connected to the same sender
and signal (no earlier binding for the pair), a dispatch for the pair invokes
`f` once and does not invoke `g`; one emission, delivered through the two
connections, invokes `f` twice and `g` not at all. -/
theorem dispatch_selects_first_binding (env : QtEnv) (sender : QObjectPtr) (signal : String)
    (f g : Callback α U)
    (hres : 0 ≤ qtObjectSignalIndex env sender signal)
    (hconn : ∀ receiver, env.connectSucceeds sender (qtObjectSignalIndex env sender signal)
        receiver env.methodCount = true)
    (hslot : env.QObject_qt_metacall Call.InvokeMetaMethod env.methodCount = 0) :
    (∀ (p : QtCallbackProxy α U) (s : QObjectPtr) (idx : Int),
        p.matchBinding (some s) idx =
          p.m_bindings.find? (fun b => decide (b.sender = s ∧ b.signalIndex = idx)))
      ∧ (∀ (w : World α U) (arguments : List α),
          (∀ b ∈ ((installCallbackProxy w sender).2.heap
              (installCallbackProxy w sender).1).m_bindings,
              ¬ (b.sender = sender ∧ b.signalIndex = qtObjectSignalIndex env sender signal)) →
          ∃ w1, dispatch env
                (connectCallback env (connectCallback env w sender signal f) sender signal g)
                (installCallbackProxy w sender).1 (some sender)
                (qtObjectSignalIndex env sender signal) Call.InvokeMetaMethod env.methodCount
                arguments = some w1
            ∧ w1.user = f.invokeWith
                (env.parameterTypes sender (qtObjectSignalIndex env sender signal)) arguments
                w.user)
      ∧ (∀ (u : U) (arguments : List α),
          ∃ w2, emitSignal env
                (connectCallback env (connectCallback env (World.empty α u) sender signal f)
                  sender signal g)
                sender (qtObjectSignalIndex env sender signal) arguments = some w2
            ∧ w2.user = f.invokeWith
                (env.parameterTypes sender (qtObjectSignalIndex env sender signal)) arguments
                (f.invokeWith
                  (env.parameterTypes sender (qtObjectSignalIndex env sender signal)) arguments
                  u)) := by
  have key : ∀ (w : World α U),
      ((connectCallback env (connectCallback env w sender signal f) sender signal g).heap
          (installCallbackProxy w sender).1).m_bindings =
        ((installCallbackProxy w sender).2.heap (installCallbackProxy w sender).1).m_bindings ++
          { sender := sender, signalIndex := qtObjectSignalIndex env sender signal,
            callback := f,
            paramTypes := env.parameterTypes sender (qtObjectSignalIndex env sender signal) } ::
          [{ sender := sender, signalIndex := qtObjectSignalIndex env sender signal,
             callback := g,
             paramTypes :=
               env.parameterTypes sender (qtObjectSignalIndex env sender signal) }] := by
    intro w
    have h2 := connectCallback_bindings env (connectCallback env w sender signal f) sender signal g
      hres (hconn _)
    rw [connectCallback_install] at h2
    rw [h2, connectCallback_bindings env w sender signal f hres (hconn _), List.append_assoc]
    rfl
  refine ⟨fun p s idx => matchBindingLoop_eq_find s idx p.m_bindings, ?_, ?_⟩
  · intro w arguments hnew
    refine ⟨_, dispatch_first env _ _ sender _ env.methodCount arguments hres hslot _ _ _
      (key w) hnew ⟨rfl, rfl⟩, ?_⟩
    simp [connectCallback_user]
  · intro u arguments
    have hnew : ∀ b ∈ ((installCallbackProxy (World.empty α u) sender).2.heap
        (installCallbackProxy (World.empty α u) sender).1).m_bindings,
        ¬ (b.sender = sender ∧ b.signalIndex = qtObjectSignalIndex env sender signal) := by
      intro b hb
      simp [installCallbackProxy, World.empty, QtCallbackProxy.new] at hb
    have hc : (connectCallback env (connectCallback env (World.empty α u) sender signal f)
        sender signal g).rt.connections =
          [⟨sender, qtObjectSignalIndex env sender signal, 0, env.methodCount⟩,
           ⟨sender, qtObjectSignalIndex env sender signal, 0, env.methodCount⟩] := by
      rw [connectCallback_connections env _ sender signal g hres (hconn _),
        connectCallback_connections env _ sender signal f hres (hconn _), connectCallback_install]
      rfl
    obtain ⟨w2, e2, hu⟩ := deliver_two_first env _ _ sender _ env.methodCount arguments hres hslot
      _ _ _ (key (World.empty α u)) hnew ⟨rfl, rfl⟩
    have hp : (installCallbackProxy (World.empty α u) sender).1 = 0 := rfl
    rw [hp] at e2
    refine ⟨w2, ?_, ?_⟩
    · unfold emitSignal
      rw [hc]
      exact e2
    · rw [hu]
      simp [connectCallback_user]
      rfl

end FirstMatch

/-! ## Event bindings -/

section EventLemmas
variable {α U : Type}

theorem fires_iff (b : EventBinding α U) (watched : QObjectPtr) (event : QEvent) :
    b.fires watched event = true ↔
      (b.sender = watched ∧ b.eventType = event.type ∧
        (match b.filter with
         | none => true
         | some f => f watched event) = true) := by
  simp only [EventBinding.fires, Bool.and_eq_true, decide_eq_true_eq, and_assoc]

theorem eventFilterLoop_eq_foldl (watched : QObjectPtr) (event : QEvent)
    (l : List (EventBinding α U)) (u : U) :
    eventFilterLoop watched event l u =
      (l.filter (fun b => b.fires watched event)).foldl (fun v b => b.callback.invokeNoArgs v) u := by
  induction l generalizing u with
  | nil => rfl
  | cons b rest ih =>
    by_cases h : b.fires watched event = true
    · have e : (b :: rest).filter (fun b : EventBinding α U => b.fires watched event) =
          b :: rest.filter (fun b : EventBinding α U => b.fires watched event) :=
        List.filter_cons_of_pos h
      rw [e, List.foldl_cons]
      have h1 := (fires_iff b watched event).mp h
      cases hc : b.callback.function with
      | none => simp only [eventFilterLoop, if_pos h1, hc, ih, Callback.invokeNoArgs]
      | some f => simp only [eventFilterLoop, if_pos h1, hc, ih, Callback.invokeNoArgs]
    · have e : (b :: rest).filter (fun b : EventBinding α U => b.fires watched event) =
          rest.filter (fun b : EventBinding α U => b.fires watched event) :=
        List.filter_cons_of_neg h
      rw [e]
      have h1 := fun hc => h ((fires_iff b watched event).mpr hc)
      simp only [eventFilterLoop, if_neg h1, ih]

theorem unbindEventLoop_fst (sender : QObjectPtr) (event : Nat) (l : List (EventBinding α U))
    (c : Int) :
    (unbindEventLoop sender event l c).1 =
      l.filter (fun b => decide (¬ (b.sender = sender ∧ b.eventType = event))) := by
  induction l generalizing c with
  | nil => rfl
  | cons b rest ih =>
    by_cases h1 : b.sender = sender
    · by_cases h2 : b.eventType = event
      · simp only [unbindEventLoop, if_pos h1, if_pos h2, ih]
        rw [List.filter_cons_of_neg (by rw [decide_eq_true_eq]; exact not_not.mpr ⟨h1, h2⟩)]
      · simp only [unbindEventLoop, if_pos h1, if_neg h2, ih]
        rw [List.filter_cons_of_pos (by rw [decide_eq_true_eq]; exact fun hc => h2 hc.2)]
    · simp only [unbindEventLoop, if_neg h1, ih]
      rw [List.filter_cons_of_pos (by rw [decide_eq_true_eq]; exact fun hc => h1 hc.1)]

theorem unbindEventLoop_snd (sender : QObjectPtr) (event : Nat) (l : List (EventBinding α U))
    (c : Int) :
    (unbindEventLoop sender event l c).2 =
      c + (((unbindEventLoop sender event l c).1.filter
        (fun b => decide (b.sender = sender))).length : Int) := by
  induction l generalizing c with
  | nil => simp [unbindEventLoop]
  | cons b rest ih =>
    by_cases h1 : b.sender = sender
    · by_cases h2 : b.eventType = event
      · simp only [unbindEventLoop, if_pos h1, if_pos h2]
        rw [ih]
        simp only [unbindEventLoop_fst]
        omega
      · simp only [unbindEventLoop, if_pos h1, if_neg h2]
        rw [ih, List.filter_cons_of_pos (by rw [decide_eq_true_eq]; exact h1)]
        simp only [unbindEventLoop_fst, List.length_cons]
        push_cast
        omega
    · simp only [unbindEventLoop, if_neg h1]
      rw [ih, List.filter_cons_of_neg (by rw [decide_eq_true_eq]; exact h1)]

theorem unbindEventLoop_zero_iff (sender : QObjectPtr) (event : Nat)
    (l : List (EventBinding α U)) :
    (unbindEventLoop sender event l 0).2 = 0 ↔
      ¬ ∃ b ∈ (unbindEventLoop sender event l 0).1, b.sender = sender := by
  rw [unbindEventLoop_snd]
  constructor
  · intro h
    rintro ⟨b, hb, hs⟩
    have hm : b ∈ (unbindEventLoop sender event l 0).1.filter
        (fun b => decide (b.sender = sender)) :=
      List.mem_filter.mpr ⟨hb, by rw [decide_eq_true_eq]; exact hs⟩
    have hl := List.length_pos_of_mem hm
    omega
  · intro h
    have : (unbindEventLoop sender event l 0).1.filter
        (fun b => decide (b.sender = sender)) = [] := by
      rw [List.filter_eq_nil_iff]
      intro b hb hs
      rw [decide_eq_true_eq] at hs
      exact h ⟨b, hb, hs⟩
    rw [this]
    rfl

theorem unbindLoop_eventFilters (self : ProxyPtr) (m : Int) (sender : QObjectPtr) (c : Int)
    (l : List (Binding α U)) (rt : QtRuntime) :
    (unbindLoop self m sender c l rt).2.eventFilters = rt.eventFilters := by
  induction l generalizing rt with
  | nil => rfl
  | cons b rest ih =>
    by_cases h : b.sender = sender ∧ b.signalIndex = c
    · simp only [unbindLoop, if_pos h, ih, QMetaObject_disconnect]
    · simp only [unbindLoop, if_neg h, ih]

theorem bind_event_side (env : QtEnv) (self : ProxyPtr) (p : QtCallbackProxy α U)
    (rt : QtRuntime) (sender : QObjectPtr) (signal : String) (callback : Callback α U) :
    (p.bind env self rt sender signal callback).1.m_eventBindings = p.m_eventBindings
      ∧ (p.bind env self rt sender signal callback).2.eventFilters = rt.eventFilters := by
  unfold QtCallbackProxy.bind QMetaObject_connect QtRuntime.warn
  constructor <;> (simp only []; split_ifs <;> rfl)

theorem hookInv_step (env : QtEnv) (self : ProxyPtr) (s : QtCallbackProxy α U × QtRuntime)
    (op : ProxyOp α U) (h : HookInv self s) : HookInv self (op.apply env self s) := by
  obtain ⟨hiff, hnd⟩ := h
  cases op with
  | bind sender signal callback =>
    have e := bind_event_side env self s.1 s.2 sender signal callback
    simp only [ProxyOp.apply, HookInv, e.1, e.2]
    exact ⟨hiff, hnd⟩
  | unbind sender signal =>
    simp only [ProxyOp.apply, HookInv, QtCallbackProxy.unbind, unbindLoop_eventFilters]
    exact ⟨hiff, hnd⟩
  | bindEvent sender event callback filter =>
    simp only [ProxyOp.apply, HookInv, QtCallbackProxy.bindEvent, QObject_installEventFilter]
    constructor
    · intro x
      by_cases hx : x = sender
      · subst hx
        simp only [List.mem_cons, true_or, true_iff]
        exact ⟨_, List.mem_append_right _ (List.mem_singleton.mpr rfl), rfl⟩
      · have hne : (x, self) ≠ (sender, self) := fun hc => hx (Prod.mk.inj hc).1
        have hx2 : ¬ sender = x := fun hc => hx hc.symm
        simp only [List.mem_cons, hne, false_or, List.mem_filter, decide_eq_true_eq, ne_eq,
          not_false_eq_true, and_true]
        rw [hiff x]
        constructor
        · rintro ⟨b, hb, hs⟩
          exact ⟨b, List.mem_append_left _ hb, hs⟩
        · rintro ⟨b, hb, hs⟩
          rcases List.mem_append.mp hb with hb | hb
          · exact ⟨b, hb, hs⟩
          · rw [List.mem_singleton.mp hb] at hs
            exact absurd hs hx2
    · refine List.nodup_cons.mpr ⟨?_, hnd.filter _⟩
      simp
  | unbindEvent sender event =>
    simp only [ProxyOp.apply, HookInv, QtCallbackProxy.unbindEvent]
    have hz := unbindEventLoop_zero_iff sender event s.1.m_eventBindings
    have hkeep : ∀ x, x ≠ sender →
        ((∃ b ∈ (unbindEventLoop sender event s.1.m_eventBindings 0).1, b.sender = x) ↔
          ∃ b ∈ s.1.m_eventBindings, b.sender = x) := by
      intro x hx
      rw [unbindEventLoop_fst]
      constructor
      · rintro ⟨b, hb, hs⟩
        exact ⟨b, List.mem_of_mem_filter hb, hs⟩
      · rintro ⟨b, hb, hs⟩
        refine ⟨b, List.mem_filter.mpr ⟨hb, ?_⟩, hs⟩
        rw [decide_eq_true_eq]
        exact fun hc => hx (hs ▸ hc.1)
    by_cases h0 : (unbindEventLoop sender event s.1.m_eventBindings 0).2 = 0
    · simp only [h0, if_true, QObject_removeEventFilter]
      refine ⟨?_, hnd.filter _⟩
      intro x
      by_cases hx : x = sender
      · subst hx
        have := hz.mp h0
        simp [this]
      · have hne : (x, self) ≠ (sender, self) := fun hc => hx (Prod.mk.inj hc).1
        simp only [List.mem_filter, decide_eq_true_eq, ne_eq, hne, not_false_eq_true, and_true]
        rw [hiff x, hkeep x hx]
    · simp only [h0, if_false]
      refine ⟨?_, hnd⟩
      intro x
      by_cases hx : x = sender
      · subst hx
        have hex : ∃ b ∈ (unbindEventLoop x event s.1.m_eventBindings 0).1, b.sender = x := by
          by_contra hc
          exact h0 (hz.mpr hc)
        have hold : ∃ b ∈ s.1.m_eventBindings, b.sender = x := by
          obtain ⟨b, hb, hs⟩ := hex
          rw [unbindEventLoop_fst] at hb
          exact ⟨b, List.mem_of_mem_filter hb, hs⟩
        exact ⟨fun _ => hex, fun _ => (hiff x).mpr hold⟩
      · rw [hiff x, hkeep x hx]

theorem nodup_filter_eq_length {β : Type} [DecidableEq β] (l : List β) (a : β)
    (h : l.Nodup) : (l.filter (fun x => decide (x = a))).length ≤ 1 := by
  induction l with
  | nil => simp
  | cons x t ih =>
    have hc := List.nodup_cons.mp h
    by_cases hxa : x = a
    · have e : t.filter (fun y => decide (y = a)) = [] := by
        rw [List.filter_eq_nil_iff]
        intro y hy hya
        rw [decide_eq_true_eq] at hya
        exact hc.1 (hxa ▸ hya ▸ hy)
      rw [List.filter_cons_of_pos (by rw [decide_eq_true_eq]; exact hxa), e]
      simp
    · rw [List.filter_cons_of_neg (by rw [decide_eq_true_eq]; exact hxa)]
      exact ih hc.2

theorem hookInv_run (env : QtEnv) (self : ProxyPtr) (ops : List (ProxyOp α U)) :
    HookInv self (runProxy env self ops) := by
  unfold runProxy
  apply foldl_invariant (HookInv self) _ (fun s op hs => hookInv_step env self s op hs)
  constructor
  · intro sender
    simp [QtCallbackProxy.new, QtRuntime.empty]
  · simp [QtRuntime.empty]

end EventLemmas

section EventTheorems
variable {α U : Type}

/-- C5: `eventFilter(watched, event)` invokes, once each and in insertion order,
exactly the callbacks of the event bindings that fire (sender is the watched
object, event type is the type of the event, filter absent or true), with no
early exit; a binding whose filter is false for all events contributes nothing:
the outcome is the same as without that binding. -/
theorem eventFilter_invokes_exactly_firing (env : QtEnv) (p : QtCallbackProxy α U)
    (watched : QObjectPtr) (event : QEvent) (u : U) :
    (p.eventFilter env watched event u).2 =
        (p.m_eventBindings.filter (fun b => b.fires watched event)).foldl
          (fun v b => b.callback.invokeNoArgs v) u
      ∧ (∀ (pre post : List (EventBinding α U)) (b : EventBinding α U)
          (flt : QObjectPtr → QEvent → Bool),
          p.m_eventBindings = pre ++ b :: post → b.filter = some flt →
          (∀ o e, flt o e = false) →
          (p.eventFilter env watched event u).2 =
            (QtCallbackProxy.eventFilter env { p with m_eventBindings := pre ++ post }
              watched event u).2) := by
  refine ⟨eventFilterLoop_eq_foldl watched event p.m_eventBindings u, ?_⟩
  intro pre post b flt hp hb hflt
  have hfalse : b.fires watched event = false := by
    simp [EventBinding.fires, hb, hflt]
  simp only [QtCallbackProxy.eventFilter, eventFilterLoop_eq_foldl, hp, List.filter_append]
  have e : (b :: post).filter (fun b : EventBinding α U => b.fires watched event) =
      post.filter (fun b : EventBinding α U => b.fires watched event) :=
    List.filter_cons_of_neg (by rw [hfalse]; exact Bool.false_ne_true)
  rw [e]

/-- C6: in every state reached from a fresh proxy by bind and unbind calls (of
either kind), the proxy is installed as event filter on a sender exactly when
it holds an event binding for that sender, and at most once.  Binding two
different event types installs the hook once; unbinding one of them keeps the
hook; unbinding the other one removes it. -/
theorem hook_installed_iff_event_binding (env : QtEnv) (self : ProxyPtr)
    (ops : List (ProxyOp α U)) (sender : QObjectPtr) :
    ((sender, self) ∈ (runProxy env self ops).2.eventFilters ↔
        ∃ b ∈ (runProxy env self ops).1.m_eventBindings, b.sender = sender)
      ∧ ((runProxy env self ops).2.eventFilters.filter
          (fun x => decide (x = (sender, self)))).length ≤ 1
      ∧ (∀ (t1 t2 : Nat) (cb1 cb2 : Callback α U) (f1 f2 : EventFilterFunc), t1 ≠ t2 →
          ((runProxy env self
              [ProxyOp.bindEvent sender t1 cb1 f1,
               ProxyOp.bindEvent sender t2 cb2 f2]).2.eventFilters.filter
              (fun x => decide (x = (sender, self)))).length = 1
            ∧ (sender, self) ∈ (runProxy env self
              [ProxyOp.bindEvent sender t1 cb1 f1, ProxyOp.bindEvent sender t2 cb2 f2,
               ProxyOp.unbindEvent sender t1]).2.eventFilters
            ∧ (sender, self) ∉ (runProxy env self
              [ProxyOp.bindEvent sender t1 cb1 f1, ProxyOp.bindEvent sender t2 cb2 f2,
               ProxyOp.unbindEvent sender t1, ProxyOp.unbindEvent sender t2]).2.eventFilters) := by
  have hinv := hookInv_run env self ops
  refine ⟨hinv.1 sender, nodup_filter_eq_length _ _ hinv.2, ?_⟩
  intro t1 t2 cb1 cb2 f1 f2 hne
  have hne2 : ¬ t2 = t1 := fun h => hne h.symm
  refine ⟨?_, ?_, ?_⟩
  · simp [runProxy, ProxyOp.apply, QtCallbackProxy.bindEvent, QObject_installEventFilter,
      QtRuntime.empty]
  · simp [runProxy, ProxyOp.apply, QtCallbackProxy.bindEvent, QObject_installEventFilter,
      QtRuntime.empty, QtCallbackProxy.unbindEvent, QtCallbackProxy.new, unbindEventLoop, hne2]
  · simp [runProxy, ProxyOp.apply, QtCallbackProxy.bindEvent, QObject_installEventFilter,
      QtRuntime.empty, QtCallbackProxy.unbindEvent, QtCallbackProxy.new, unbindEventLoop, hne2,
      QObject_removeEventFilter]

end EventTheorems

/-! ## The registry -/

section RegistryLemmas
variable {α U : Type}

theorem install_none (w : World α U) (s : QObjectPtr) (h : w.property s = none) :
    installCallbackProxy w s =
      (w.nextProxy,
        { w with heap := Function.update w.heap w.nextProxy (QtCallbackProxy.new α U),
                 nextProxy := w.nextProxy + 1,
                 property := Function.update w.property s (some w.nextProxy) }) := by
  unfold installCallbackProxy
  rw [h]

theorem install_inv (w : World α U) (s : QObjectPtr) (h : RegistryInv w) :
    RegistryInv (installCallbackProxy w s).2 := by
  cases hp : w.property s with
  | some p => rw [install_fst_of_property w s p hp]; exact h
  | none =>
    rw [install_none w s hp]
    constructor
    · intro x p hx
      by_cases hxs : x = s
      · subst hxs
        simp only [Function.update_same, Option.some.injEq] at hx
        show p < w.nextProxy + 1
        rw [hx]
        exact Nat.lt_succ_self p
      · simp only [Function.update_noteq hxs] at hx
        exact Nat.lt_succ_of_lt (h.1 x p hx)
    · intro x y p hx hy
      by_cases hxs : x = s
      · by_cases hys : y = s
        · rw [hxs, hys]
        · subst hxs
          simp only [Function.update_same, Option.some.injEq] at hx
          simp only [Function.update_noteq hys] at hy
          have hlt := h.1 y p hy
          rw [hx] at hlt
          exact absurd hlt (Nat.lt_irrefl _)
      · by_cases hys : y = s
        · subst hys
          simp only [Function.update_same, Option.some.injEq] at hy
          simp only [Function.update_noteq hxs] at hx
          have hlt := h.1 x p hx
          rw [hy] at hlt
          exact absurd hlt (Nat.lt_irrefl _)
        · simp only [Function.update_noteq hxs] at hx
          simp only [Function.update_noteq hys] at hy
          exact h.2 x y p hx hy

theorem apply_shape (env : QtEnv) (w : World α U) (op : ApiOp α U) :
    ∃ x rt1, op.apply env w =
      { (installCallbackProxy w op.sender).2 with
        heap := Function.update (installCallbackProxy w op.sender).2.heap
          (installCallbackProxy w op.sender).1 x,
        rt := rt1 } := by
  cases op <;> exact ⟨_, _, rfl⟩

theorem apply_inv (env : QtEnv) (w : World α U) (op : ApiOp α U) (h : RegistryInv w) :
    RegistryInv (op.apply env w) := by
  obtain ⟨x, rt1, e⟩ := apply_shape env w op
  rw [e]
  exact install_inv w op.sender h

theorem runApi_inv (env : QtEnv) (u : U) (ops : List (ApiOp α U)) :
    RegistryInv (runApi env u ops) := by
  unfold runApi
  apply foldl_invariant RegistryInv _ (fun w op hw => apply_inv env w op hw)
  constructor
  · intro s p hp
    simp [World.empty] at hp
  · intro s1 s2 p hp
    simp [World.empty] at hp

theorem install_property_stable (w : World α U) (s x : QObjectPtr) (p : ProxyPtr)
    (h : w.property x = some p) : (installCallbackProxy w s).2.property x = some p := by
  cases hp : w.property s with
  | some q => rw [install_fst_of_property w s q hp]; exact h
  | none =>
    rw [install_none w s hp]
    have hxs : x ≠ s := fun hc => by rw [hc, hp] at h; exact Option.noConfusion h
    simp only [Function.update_noteq hxs]
    exact h

theorem apply_property_stable (env : QtEnv) (w : World α U) (op : ApiOp α U) (x : QObjectPtr)
    (p : ProxyPtr) (h : w.property x = some p) : (op.apply env w).property x = some p := by
  obtain ⟨y, rt1, e⟩ := apply_shape env w op
  rw [e]
  exact install_property_stable w op.sender x p h

theorem install_other (w : World α U) (s1 s2 : QObjectPtr) (p2 : ProxyPtr) (h : RegistryInv w)
    (hne : s1 ≠ s2) (h2 : w.property s2 = some p2) :
    (installCallbackProxy w s1).1 ≠ p2 ∧ (installCallbackProxy w s1).2.heap p2 = w.heap p2 := by
  cases hp : w.property s1 with
  | some q =>
    rw [install_fst_of_property w s1 q hp]
    exact ⟨fun hc => hne (h.2 s1 s2 p2 (hc ▸ hp) h2), rfl⟩
  | none =>
    rw [install_none w s1 hp]
    have hlt := h.1 s2 p2 h2
    have hne2 : p2 ≠ w.nextProxy := Nat.ne_of_lt hlt
    exact ⟨fun hc => hne2 hc.symm, Function.update_noteq hne2 _ _⟩

theorem apply_other (env : QtEnv) (w : World α U) (op : ApiOp α U) (s2 : QObjectPtr)
    (p2 : ProxyPtr) (h : RegistryInv w) (hne : op.sender ≠ s2) (h2 : w.property s2 = some p2) :
    (op.apply env w).heap p2 = w.heap p2 := by
  obtain ⟨x, rt1, e⟩ := apply_shape env w op
  obtain ⟨hp, hh⟩ := install_other w op.sender s2 p2 h hne h2
  rw [e]
  show Function.update _ _ _ p2 = _
  rw [Function.update_noteq (fun hc => hp hc.symm), hh]

end RegistryLemmas

section RegistryTheorems
variable {α U : Type}

/-- C8: in every state reached by public calls, for two distinct senders `s1` and
`s2`: `installCallbackProxy(s1)` returns the same proxy on every later call,
the proxy returned for `s2` is a different one, and every public call applied
to `s1` leaves the proxy of `s2` (its binding table and event-binding table,
hence their counts) unchanged and still recorded for `s2`. -/
theorem distinct_senders_have_independent_proxies (env : QtEnv) (u : U)
    (ops : List (ApiOp α U)) (s1 s2 : QObjectPtr) (hne : s1 ≠ s2) :
    (∀ later : List (ApiOp α U),
        (installCallbackProxy
          (later.foldl (ApiOp.apply env) (installCallbackProxy (runApi env u ops) s1).2) s1).1
          = (installCallbackProxy (runApi env u ops) s1).1)
      ∧ (installCallbackProxy (installCallbackProxy (runApi env u ops) s1).2 s2).1
          ≠ (installCallbackProxy (runApi env u ops) s1).1
      ∧ (∀ op : ApiOp α U, op.sender = s1 →
          (installCallbackProxy (op.apply env (installCallbackProxy (runApi env u ops) s2).2) s2).1
              = (installCallbackProxy (runApi env u ops) s2).1
            ∧ (op.apply env (installCallbackProxy (runApi env u ops) s2).2).heap
                (installCallbackProxy (runApi env u ops) s2).1
              = (installCallbackProxy (runApi env u ops) s2).2.heap
                (installCallbackProxy (runApi env u ops) s2).1
            ∧ ((op.apply env (installCallbackProxy (runApi env u ops) s2).2).heap
                (installCallbackProxy (runApi env u ops) s2).1).m_bindings.length
              = ((installCallbackProxy (runApi env u ops) s2).2.heap
                (installCallbackProxy (runApi env u ops) s2).1).m_bindings.length
            ∧ ((op.apply env (installCallbackProxy (runApi env u ops) s2).2).heap
                (installCallbackProxy (runApi env u ops) s2).1).m_eventBindings.length
              = ((installCallbackProxy (runApi env u ops) s2).2.heap
                (installCallbackProxy (runApi env u ops) s2).1).m_eventBindings.length) := by
  have hinv := runApi_inv env u ops
  have hinv1 := install_inv _ s1 hinv
  have hinv2 := install_inv _ s2 hinv
  have hp1 := install_property (runApi env u ops) s1
  have hp2 := install_property (runApi env u ops) s2
  refine ⟨?_, ?_, ?_⟩
  · intro later
    have hstable : (later.foldl (ApiOp.apply env)
        (installCallbackProxy (runApi env u ops) s1).2).property s1 =
          some (installCallbackProxy (runApi env u ops) s1).1 :=
      foldl_invariant
        (fun w : World α U => w.property s1 = some (installCallbackProxy (runApi env u ops) s1).1)
        _ (fun w op hw => apply_property_stable env w op s1 _ hw) later _ hp1
    rw [install_fst_of_property _ s1 _ hstable]
  · exact (install_other _ s2 s1 _ hinv1 (fun hc => hne hc.symm) hp1).1
  · intro op hop
    have hs : op.sender ≠ s2 := by rw [hop]; exact hne
    have hheap := apply_other env _ op s2 _ hinv2 hs hp2
    refine ⟨?_, hheap, ?_, ?_⟩
    · rw [install_fst_of_property _ s2 _ (apply_property_stable env _ op s2 _ hp2)]
    · rw [hheap]
    · rw [hheap]

end RegistryTheorems

/-! ## The safe binder -/

section SafeTheorems
variable {T A R U : Type}

theorem strongRef_data_of_gone (s : ObjectStore T) (r : Receiver)
    (h : r.target = none ∨ ∃ a, r.target = some a ∧ s.object a = none) :
    StrongRef.data s r = none := by
  cases r with
  | QWeakPointer t =>
    rcases h with h | ⟨a, h, ha⟩
    · simp only [Receiver.target] at h
      simp [StrongRef.data, QWeakPointer_toStrongRef, QWeakPointer_data, h]
    · simp only [Receiver.target] at h
      simp [StrongRef.data, QWeakPointer_toStrongRef, QWeakPointer_data, h, ha]
  | QPointer t =>
    rcases h with h | ⟨a, h, ha⟩
    · simp only [Receiver.target] at h
      simp [StrongRef.data, QPointer_data, h]
    · simp only [Receiver.target] at h
      simp [StrongRef.data, QPointer_data, h, ha]
  | weak_ptr t =>
    rcases h with h | ⟨a, h, ha⟩
    · simp only [Receiver.target] at h
      simp [StrongRef.data, weak_ptr_lock, h]
    · simp only [Receiver.target] at h
      simp [StrongRef.data, weak_ptr_lock, h, ha]

theorem strongRef_data_of_alive (s : ObjectStore T) (r : Receiver) (a : Nat) (obj : T)
    (ht : r.target = some a) (ho : s.object a = some obj)
    (hk : (∀ t, r ≠ Receiver.weak_ptr t) ∨ s.shared a = true) :
    StrongRef.data s r = some obj := by
  cases r with
  | QWeakPointer t =>
    simp only [Receiver.target] at ht
    by_cases hs : s.shared a = true
    · simp [StrongRef.data, QWeakPointer_toStrongRef, ht, ho, hs]
    · simp [StrongRef.data, QWeakPointer_toStrongRef, QWeakPointer_data, ht, ho, hs]
  | QPointer t =>
    simp only [Receiver.target] at ht
    simp [StrongRef.data, QPointer_data, ht, ho]
  | weak_ptr t =>
    simp only [Receiver.target] at ht
    rcases hk with hk | hk
    · exact absurd rfl (hk t)
    · simp [StrongRef.data, weak_ptr_lock, ht, ho, hk]

/-- C7: the call operator of a safe binder returns the result of the member
function on the promoted receiver and the arguments when promotion yields an
object; it returns the default result and leaves the user state alone (the
member function is not invoked) when the reference is null or the receiver has
been destroyed.  Promotion is done on every call: a call while the receiver is
alive gives the real result and a call after its destruction gives the default.
While the receiver is alive promotion does yield it (for `weak_ptr` when the
object is owned by shared pointers). -/
theorem safeBinder_call_result [Inhabited R] (b : SafeBinder T A R U) (s : ObjectStore T)
    (args : A) (u : U) :
    (∀ obj, StrongRef.data s b.m_receiver = some obj → b.call s args u = b.m_func obj args u)
      ∧ ((b.m_receiver.target = none ∨ ∃ a, b.m_receiver.target = some a ∧ s.object a = none) →
          b.call s args u = (default, u))
      ∧ (∀ a obj, b.m_receiver.target = some a → StrongRef.data s b.m_receiver = some obj →
          ∀ args2 : A,
            b.call s args u = b.m_func obj args u
              ∧ b.call (s.destroy a) args2 (b.call s args u).2 = (default, (b.call s args u).2))
      ∧ (∀ a obj, b.m_receiver.target = some a → s.object a = some obj →
          ((∀ t, b.m_receiver ≠ Receiver.weak_ptr t) ∨ s.shared a = true) →
          StrongRef.data s b.m_receiver = some obj) := by
  refine ⟨?_, ?_, ?_, ?_⟩
  · intro obj h
    simp only [SafeBinder.call, h]
  · intro h
    simp only [SafeBinder.call, strongRef_data_of_gone s b.m_receiver h]
  · intro a obj ht h args2
    constructor
    · simp only [SafeBinder.call, h]
    · have hg : StrongRef.data (s.destroy a) b.m_receiver = none :=
        strongRef_data_of_gone _ _ (Or.inr ⟨a, ht, by simp [ObjectStore.destroy]⟩)
      simp only [SafeBinder.call, hg]
  · intro a obj ht ho hk
    exact strongRef_data_of_alive s b.m_receiver a obj ht ho hk

end SafeTheorems

/-! ## Instances at the example data -/

/-- C8 (witness): senders 1 and 2 after one `connectCallback` on sender 1. -/
theorem distinct_senders_have_independent_proxies_witness :
    (installCallbackProxy
        (installCallbackProxy
          (runApi exampleEnv ([] : List Int)
            [ApiOp.connectCallback 1 "2valueChanged(int)" appendArg]) 1).2 2).1
      ≠ (installCallbackProxy
          (runApi exampleEnv ([] : List Int)
            [ApiOp.connectCallback 1 "2valueChanged(int)" appendArg]) 1).1 :=
  (distinct_senders_have_independent_proxies exampleEnv ([] : List Int)
    [ApiOp.connectCallback 1 "2valueChanged(int)" appendArg] 1 2 (by decide)).2.1

/-- C9 (witness): unbinding the unknown signal `nope()` after one successful bind
keeps the one binding. -/
theorem unbind_unresolved_changes_nothing_witness :
    (((runProxy exampleEnv 0 [ProxyOp.bind 1 "2valueChanged(int)" appendArg]).1.unbind exampleEnv 0
        (runProxy exampleEnv 0 [ProxyOp.bind 1 "2valueChanged(int)" appendArg]).2 1 "2nope()").1
        = (runProxy exampleEnv 0 [ProxyOp.bind 1 "2valueChanged(int)" appendArg]).1)
      ∧ (runProxy exampleEnv 0
          [ProxyOp.bind 1 "2valueChanged(int)" appendArg]).1.m_bindings.length = 1 :=
  ⟨(unbind_unresolved_changes_nothing exampleEnv 0
      [ProxyOp.bind 1 "2valueChanged(int)" appendArg] 1 "2nope()" (by decide)).2.1, by rfl⟩

/-- C10 (witness): with `appendConst 1` and then `appendConst 2` connected to the
same signal of sender 1, one emission gives the list `[1, 1]`. -/
theorem dispatch_selects_first_binding_witness :
    ∃ w2, emitSignal exampleEnv
          (connectCallback exampleEnv
            (connectCallback exampleEnv (World.empty Int ([] : List Int)) 1 "2valueChanged(int)"
              (appendConst 1))
            1 "2valueChanged(int)" (appendConst 2))
          1 4 [0, 5] = some w2
      ∧ w2.user = [1, 1] :=
  ((dispatch_selects_first_binding exampleEnv 1 "2valueChanged(int)" (appendConst 1)
    (appendConst 2) (by decide) (fun _ => rfl) (by decide)).2.2 ([] : List Int) [0, 5])

/-- C2 (witness): unbinding the signal of sender 1 in the example proxy leaves the
one binding of sender 2. -/
theorem unbind_removes_exactly_matching_witness :
    (exampleProxy.unbind exampleEnv 0 QtRuntime.empty 1 "2valueChanged(int)").1.m_bindings.map
        Binding.sender = [2] := by
  rw [(unbind_removes_exactly_matching exampleEnv 0 exampleProxy QtRuntime.empty 1
    "2valueChanged(int)").1]
  rfl

/-- C4 (witness): binding the unknown signal `nope()` leaves both tables of the
example proxy as they were and writes the one warning "No such signal". -/
theorem bind_appends_iff_resolved_and_connected_witness :
    (exampleProxy.bind exampleEnv 0 QtRuntime.empty 1 "2nope()" appendArg).1.m_bindings
        = exampleProxy.m_bindings
      ∧ (exampleProxy.bind exampleEnv 0 QtRuntime.empty 1 "2nope()" appendArg).1.m_eventBindings
        = exampleProxy.m_eventBindings
      ∧ (exampleProxy.bind exampleEnv 0 QtRuntime.empty 1 "2nope()" appendArg).2.warnings
        = [Diagnostic.noSuchSignal "2nope()" 1] := by
  have h := bind_appends_iff_resolved_and_connected exampleEnv 0 exampleProxy QtRuntime.empty 1
    "2nope()" appendArg
  rw [if_neg (by decide)] at h
  exact h

/-- C5 (witness): an event of type 5 with payload 0 on sender 1 runs the first and
the third callback of the example table, in this order; the binding with the
filter `rejectAll` can be left out. -/
theorem eventFilter_invokes_exactly_firing_witness :
    (exampleEventProxy.eventFilter exampleEnv 1 ⟨5, 0⟩ []).2 = [10, 30]
      ∧ (exampleEventProxy.eventFilter exampleEnv 1 ⟨5, 0⟩ []).2 =
          (QtCallbackProxy.eventFilter exampleEnv
            { exampleEventProxy with
              m_eventBindings :=
                [{ sender := 1, eventType := 5, callback := appendConst 10, filter := none }] ++
                [{ sender := 1, eventType := 5, callback := appendConst 30,
                   filter := some (fun _ e => decide (e.payload = 0)) },
                 { sender := 2, eventType := 5, callback := appendConst 40, filter := none }] }
            1 ⟨5, 0⟩ []).2 :=
  ⟨(eventFilter_invokes_exactly_firing exampleEnv exampleEventProxy 1 ⟨5, 0⟩ []).1.trans rfl,
    (eventFilter_invokes_exactly_firing exampleEnv exampleEventProxy 1 ⟨5, 0⟩ []).2 _ _ _
      rejectAll rfl rfl (fun _ _ => rfl)⟩

/-- C6 (witness): event types 5 and 6 on sender 1, proxy address 0. -/
theorem hook_installed_iff_event_binding_witness :
    ((runProxy exampleEnv 0
        [ProxyOp.bindEvent 1 5 (appendConst 1) none,
         ProxyOp.bindEvent 1 6 (appendConst 2) none]).2.eventFilters.filter
        (fun x => decide (x = (1, 0)))).length = 1
      ∧ (1, 0) ∈ (runProxy exampleEnv 0
        [ProxyOp.bindEvent 1 5 (appendConst 1) none, ProxyOp.bindEvent 1 6 (appendConst 2) none,
         ProxyOp.unbindEvent 1 5]).2.eventFilters
      ∧ (1, 0) ∉ (runProxy exampleEnv 0
        [ProxyOp.bindEvent 1 5 (appendConst 1) none, ProxyOp.bindEvent 1 6 (appendConst 2) none,
         ProxyOp.unbindEvent 1 5, ProxyOp.unbindEvent 1 6]).2.eventFilters :=
  (hook_installed_iff_event_binding exampleEnv 0 ([] : List (ProxyOp Int (List Int))) 1).2.2
    5 6 (appendConst 1) (appendConst 2) none none (by decide)

/-- C7 (witness): the binder `getName` returns the name while the object is alive
(one invocation counted) and the empty string after its destruction (no further
invocation counted). -/
theorem safeBinder_call_result_witness :
    getName.call exampleStore () 0 = ("myObject", 1)
      ∧ getName.call (exampleStore.destroy 0) () 1 = ("", 1) :=
  (safeBinder_call_result getName exampleStore () 0).2.2.1 0 "myObject" rfl rfl ()

end QtSignalTools
